import Mathlib

/-!
# A simulated FAT file store

Shallow embedding of the file-store programs `errorhandlepros4.c` (the variant with
return codes and `readFile` / `writeFile`) and `pros2.c` (the variant that fills the
directory slot in place).  `pros.c` has the body of `errorhandlepros4.c` without return
codes, and `Evaluationpros5.c` has the same body with a mutex around the directory
insertion and around `listFiles` / `readFile` / `writeFile`.

Conventions of the embedding.

* The three global objects `rootDirectory`, `dataBlocks`, `fileAllocationTable` are the
  fields of one record `FileSystem`, threaded through every operation.
* C `int` values are `Int`; the one addition whose operand is not bounded by the code
  (`file.firstDataBlock + allocatedBlocks`) is reduced to 32 bits with `wrapInt`.
* A C string is the sequence of characters before its terminator, one `Char` for each C
  `char`, so `strlen` is `String.length`.
* The field `name` of a descriptor is the C string that `printf("%s")` and `strcmp` read
  at `files[i].name`. `FileMetadata` starts with `char name[MAX_FILENAME_LENGTH]` followed
  by `int size` at offset 100 (a multiple of `sizeof(int)`, so no padding lies between
  them), and `int` has four bytes, least significant first: `storedName` gives the string
  that `strcpy(file.name, name); file.size = size;` leaves there. This is the one place
  where the embedding follows bytes past the end of an array (the terminator of a name of
  `MAX_FILENAME_LENGTH` characters lands on `size`, inside the same struct).
* An operation returns `none` when it accesses an array outside its extent (the C code has
  no defined result there); every array access is a checked list access.
* `fopen` belongs to the host; whether it succeeds is a parameter `fopenOk`.
* `createFile` in `errorhandlepros4.c` declares `FileMetadata file;` and never assigns
  `file.firstDataBlock`; the value found there is the parameter `uninit`.
* Console diagnostics are not part of the results; the content that `readFile` prints is.
-/

set_option maxRecDepth 100000

namespace FileStore

/-! ## Constants -/

def MAX_FILENAME_LENGTH : Nat := 100
def MAX_FILES : Nat := 100
def MAX_DATA_BLOCKS : Nat := 1000
def DATA_BLOCK_SIZE : Nat := 1024

/-! ## Data model -/

/-- Descriptor of one file: `FileMetadata`. -/
structure FileMetadata where
  name : String
  size : Int
  permissions : Int
  firstDataBlock : Int
  deriving DecidableEq, Repr

/-- One block of the pool: `DataBlock`. -/
structure DataBlock where
  nextDataBlock : Int
  data : List Char
  deriving DecidableEq, Repr

/-- The globals `rootDirectory` (`files`, `fileCount`), `dataBlocks` and
`fileAllocationTable.allocationTable`. -/
structure FileSystem where
  files : List FileMetadata
  fileCount : Int
  dataBlocks : List DataBlock
  allocationTable : List Int
  deriving DecidableEq, Repr

/-- The arrays have their declared extents. -/
def WellFormed (s : FileSystem) : Prop :=
  s.files.length = MAX_FILES ∧
  s.dataBlocks.length = MAX_DATA_BLOCKS ∧
  s.allocationTable.length = MAX_DATA_BLOCKS ∧
  ∀ b ∈ s.dataBlocks, b.data.length = DATA_BLOCK_SIZE

/-- The terminator character. -/
def NUL : Char := Char.ofNat 0

/-- Reduction of an integer to a 32-bit two's-complement `int`. -/
def wrapInt (x : Int) : Int := (x + 2147483648) % 4294967296 - 2147483648

/-- The `int` whose four bytes all hold `(unsigned char) c`, as `memset` leaves it. -/
def memsetInt (c : Int) : Int := wrapInt ((c % 256) * (1 + 256 + 65536 + 16777216))

/-- Static storage at program start: every byte zero. -/
def bootState : FileSystem where
  files := List.replicate MAX_FILES { name := "", size := 0, permissions := 0, firstDataBlock := 0 }
  fileCount := 0
  dataBlocks := List.replicate MAX_DATA_BLOCKS
    { nextDataBlock := 0, data := List.replicate DATA_BLOCK_SIZE NUL }
  allocationTable := List.replicate MAX_DATA_BLOCKS 0

/-- The function `initializeFileSystem`: `fileCount = 0` and `memset` of the whole table
with `-1`. -/
def initializeFileSystem (s : FileSystem) : FileSystem :=
  { s with
    fileCount := 0
    allocationTable := List.replicate MAX_DATA_BLOCKS (memsetInt (-1)) }

/-! ## `createFile` (errorhandlepros4.c) -/

/-- The scan loop of `createFile` (lines 61-69):
`while (allocatedBlocks < size / DATA_BLOCK_SIZE && currentBlock < MAX_DATA_BLOCKS)`.
The first argument bounds the number of iterations; `MAX_DATA_BLOCKS` is enough because
`currentBlock` grows by one each time. Returns the table and `allocatedBlocks`. -/
def allocLoop (firstDataBlock size : Int) :
    Nat → List Int → Int → Nat → Option (List Int × Int)
  | 0, table, allocatedBlocks, _ => some (table, allocatedBlocks)
  | fuel + 1, table, allocatedBlocks, currentBlock =>
    if allocatedBlocks < Int.tdiv size DATA_BLOCK_SIZE ∧ currentBlock < MAX_DATA_BLOCKS then
      match table[currentBlock]? with
      | none => none
      | some entry =>
        if entry = -1 then
          allocLoop firstDataBlock size fuel
            (table.set currentBlock (wrapInt (firstDataBlock + allocatedBlocks)))
            (allocatedBlocks + 1) (currentBlock + 1)
        else
          allocLoop firstDataBlock size fuel table allocatedBlocks (currentBlock + 1)
    else some (table, allocatedBlocks)

/-- The chain walk of `createFile` (lines 82-88):
`while (size > 0 && blockIndex != -1)`, each round dereferencing `dataBlocks[blockIndex]`
and `allocationTable[blockIndex]`. Returns the block indices whose data is written to the
host file, in order. The first argument bounds the number of rounds; `size` is enough. -/
def walkLoop (dataBlocks : List DataBlock) (table : List Int) :
    Nat → Int → Int → Option (List Int)
  | 0, size, blockIndex => if size > 0 ∧ blockIndex ≠ -1 then none else some []
  | fuel + 1, size, blockIndex =>
    if size > 0 ∧ blockIndex ≠ -1 then
      if 0 ≤ blockIndex then
        match dataBlocks[blockIndex.toNat]?, table[blockIndex.toNat]? with
        | some _, some next =>
          (walkLoop dataBlocks table fuel (size - DATA_BLOCK_SIZE) next).map (blockIndex :: ·)
        | _, _ => none
      else none
    else some []

/-- The four bytes of an `int` in memory order, least significant first. -/
def intBytes (x : Int) : List Nat :=
  let u := (x % 4294967296).toNat
  [u % 256, u / 256 % 256, u / 65536 % 256, u / 16777216 % 256]

/-- The C string found at `file.name` after `strcpy(file.name, name); file.size = size;`
(lines 57-58). A name shorter than `MAX_FILENAME_LENGTH` is stored with its terminator.
For a longer name (the length check lets exactly `MAX_FILENAME_LENGTH` characters through)
`strcpy` puts the terminator on the first byte of `file.size`, the assignment to
`file.size` overwrites it, and the string runs on through the bytes of `size` up to the
first zero byte. `createFile` stores only sizes in `1 .. 1024000`, whose fourth byte is
zero (`intBytes_fourth`), so the string ends inside `size`. -/
def storedName (name : String) (size : Int) : String :=
  if name.length < MAX_FILENAME_LENGTH then name
  else name ++ String.mk (((intBytes size).takeWhile (fun b => b ≠ 0)).map Char.ofNat)

/-- The function `createFile` of errorhandlepros4.c: return code and resulting state.
The descriptor's name is what `strcpy(file.name, name)` and `file.size = size` leave to
be read at `file.name` (`storedName`). -/
def createFile (uninit : Int) (fopenOk : Bool) (name : String) (size permissions : Int)
    (s : FileSystem) : Option (Int × FileSystem) :=
  if s.fileCount ≥ MAX_FILES then some (-1, s)
  else if name.length > MAX_FILENAME_LENGTH then some (-2, s)
  else if size ≤ 0 ∨ size > MAX_DATA_BLOCKS * DATA_BLOCK_SIZE then some (-3, s)
  else
    let file : FileMetadata :=
      { name := storedName name size, size := size, permissions := permissions,
        firstDataBlock := uninit }
    match allocLoop file.firstDataBlock size MAX_DATA_BLOCKS s.allocationTable 0 0 with
    | none => none
    | some (table, allocatedBlocks) =>
      let s1 : FileSystem := { s with allocationTable := table }
      if allocatedBlocks < Int.tdiv size DATA_BLOCK_SIZE then some (-4, s1)
      else if fopenOk = false then some (-5, s1)
      else
        match walkLoop s1.dataBlocks s1.allocationTable size.toNat size file.firstDataBlock with
        | none => none
        | some _ =>
          if 0 ≤ s1.fileCount ∧ s1.fileCount.toNat < s1.files.length then
            some (0, { s1 with
                        files := s1.files.set s1.fileCount.toNat file
                        fileCount := s1.fileCount + 1 })
          else none

/-- The function `listFiles`: the (name, size, permissions) lines printed, in order. -/
def listFiles (s : FileSystem) : List (String × Int × Int) :=
  (s.files.take s.fileCount.toNat).map (fun f => (f.name, f.size, f.permissions))

/-! ## `readFile` and `writeFile` (errorhandlepros4.c) -/

/-- The lookup loop shared by `readFile` and `writeFile`:
`for (i = 0; i < fileCount; i++) if (strcmp(files[i].name, name) == 0) { fileIndex = i; break; }`.
Returns `fileIndex` (`-1` when no slot matches). -/
def findFile (files : List FileMetadata) (fileCount : Int) (name : String) :
    Nat → Nat → Option Int
  | 0, _ => some (-1)
  | fuel + 1, i =>
    if (i : Int) < fileCount then
      match files[i]? with
      | none => none
      | some f => if f.name = name then some i else findFile files fileCount name fuel (i + 1)
    else some (-1)

/-- What `printf("%s", data)` prints of a block: the characters before the first
terminator. -/
def cString (data : List Char) : List Char := data.takeWhile (fun c => c ≠ NUL)

/-- The chain walk of `readFile` (lines 129-135):
`while (file->size > 0 && blockIndex != -1)` with `file->size -= DATA_BLOCK_SIZE` each
round. Returns the final value of `file->size` and the content printed. -/
def readLoop (dataBlocks : List DataBlock) (table : List Int) :
    Nat → Int → Int → Option (Int × List Char)
  | 0, size, blockIndex => if size > 0 ∧ blockIndex ≠ -1 then none else some (size, [])
  | fuel + 1, size, blockIndex =>
    if size > 0 ∧ blockIndex ≠ -1 then
      if 0 ≤ blockIndex then
        match dataBlocks[blockIndex.toNat]?, table[blockIndex.toNat]? with
        | some dataBlock, some next =>
          (readLoop dataBlocks table fuel (size - DATA_BLOCK_SIZE) next).map
            (fun r => (r.1, cString dataBlock.data ++ r.2))
        | _, _ => none
      else none
    else some (size, [])

/-- The function `readFile`: return code, resulting state and content printed.
`file` points into `rootDirectory.files`, so the loop's `file->size -= DATA_BLOCK_SIZE`
is a store into the directory. The descriptor keeps its `name`; for a descriptor whose
name field holds `MAX_FILENAME_LENGTH` characters without terminator, the string read
there after the store would run through the new bytes of `size`, which is not followed. -/
def readFile (fopenOk : Bool) (name : String) (s : FileSystem) :
    Option (Int × FileSystem × List Char) :=
  match findFile s.files s.fileCount name s.fileCount.toNat 0 with
  | none => none
  | some fileIndex =>
    if fileIndex = -1 then some (-1, s, [])
    else
      match s.files[fileIndex.toNat]? with
      | none => none
      | some file =>
        if fopenOk = false then some (-2, s, [])
        else
          match readLoop s.dataBlocks s.allocationTable file.size.toNat file.size
              file.firstDataBlock with
          | none => none
          | some (size, out) =>
            some (0, { s with files := s.files.set fileIndex.toNat { file with size := size } },
              out)

/-- The effect of `strncpy(data, content, n)`: the first `n` characters of `content`,
padded with terminators up to `n`. -/
def strncpy (content : List Char) (n : Nat) : List Char :=
  content.take n ++ List.replicate (n - content.length) NUL

/-- The block loop of `writeFile` (lines 166-178):
`while (blockCount < file->size / blockSize && blockIndex != -1 && contentLength > 0)`.
Returns the block pool. -/
def writeLoop (table : List Int) (size : Int) :
    Nat → List DataBlock → List Char → Int → Int → Int → Option (List DataBlock)
  | 0, dataBlocks, _, contentLength, blockCount, blockIndex =>
    if blockCount < Int.tdiv size DATA_BLOCK_SIZE ∧ blockIndex ≠ -1 ∧ contentLength > 0 then none
    else some dataBlocks
  | fuel + 1, dataBlocks, content, contentLength, blockCount, blockIndex =>
    if blockCount < Int.tdiv size DATA_BLOCK_SIZE ∧ blockIndex ≠ -1 ∧ contentLength > 0 then
      if 0 ≤ blockIndex then
        match dataBlocks[blockIndex.toNat]?, table[blockIndex.toNat]? with
        | some dataBlock, some next =>
          writeLoop table size fuel
            (dataBlocks.set blockIndex.toNat
              { dataBlock with data := strncpy content DATA_BLOCK_SIZE })
            (content.drop DATA_BLOCK_SIZE) (contentLength - DATA_BLOCK_SIZE) (blockCount + 1) next
        | _, _ => none
      else none
    else some dataBlocks

/-- The function `writeFile`: return code and resulting state. -/
def writeFile (fopenOk : Bool) (name : String) (content : List Char) (s : FileSystem) :
    Option (Int × FileSystem) :=
  match findFile s.files s.fileCount name s.fileCount.toNat 0 with
  | none => none
  | some fileIndex =>
    if fileIndex = -1 then some (-1, s)
    else
      match s.files[fileIndex.toNat]? with
      | none => none
      | some file =>
        if fopenOk = false then some (-2, s)
        else
          match writeLoop s.allocationTable file.size content.length s.dataBlocks content
              content.length 0 file.firstDataBlock with
          | none => none
          | some dataBlocks => some (0, { s with dataBlocks := dataBlocks })

/-! ## `createFile` (pros2.c) -/

namespace Pros2

/-- The line that `createFile` of pros2.c prints before it returns (it returns `void`). -/
inductive Message where
  | maxFilesReached
  | nameTooLong
  | invalidSize
  | noFileSlot
  | notEnoughBlocks
  | openFailed
  | created
  deriving DecidableEq, Repr

/-- The slot search of pros2.c (lines 68-74):
`for (i = 0; i < MAX_FILES; i++) if (files[i].size == 0) { fileIndex = i; break; }`. -/
def findSlot (files : List FileMetadata) : Nat → Nat → Option Int
  | 0, _ => some (-1)
  | fuel + 1, i =>
    if i < MAX_FILES then
      match files[i]? with
      | none => none
      | some f => if f.size = 0 then some i else findSlot files fuel (i + 1)
    else some (-1)

/-- The function `createFile` of pros2.c: the line printed and the resulting state.
`file` points at the slot found, so name, size and permissions are stored in the directory
before the scan, `file->firstDataBlock` is the slot's own field, and `fileCount` is not
touched. The name is stored by the same two statements as in errorhandlepros4.c
(`strcpy(file->name, name); file->size = size;`, lines 83-84), over the same layout of
`name` and `size`. -/
def createFile (fopenOk : Bool) (name : String) (size permissions : Int) (s : FileSystem) :
    Option (Message × FileSystem) :=
  if s.fileCount ≥ MAX_FILES then some (Message.maxFilesReached, s)
  else if name.length > MAX_FILENAME_LENGTH then some (Message.nameTooLong, s)
  else if size ≤ 0 ∨ size > MAX_DATA_BLOCKS * DATA_BLOCK_SIZE then some (Message.invalidSize, s)
  else
    match findSlot s.files MAX_FILES 0 with
    | none => none
    | some fileIndex =>
      if fileIndex = -1 then some (Message.noFileSlot, s)
      else
        match s.files[fileIndex.toNat]? with
        | none => none
        | some slot =>
          let file : FileMetadata :=
            { slot with name := storedName name size, size := size, permissions := permissions }
          let s1 : FileSystem := { s with files := s.files.set fileIndex.toNat file }
          match allocLoop file.firstDataBlock size MAX_DATA_BLOCKS s1.allocationTable 0 0 with
          | none => none
          | some (table, allocatedBlocks) =>
            let s2 : FileSystem := { s1 with allocationTable := table }
            if allocatedBlocks < Int.tdiv size DATA_BLOCK_SIZE then
              some (Message.notEnoughBlocks, s2)
            else if fopenOk = false then some (Message.openFailed, s2)
            else
              match walkLoop s2.dataBlocks s2.allocationTable size.toNat size
                  file.firstDataBlock with
              | none => none
              | some _ => some (Message.created, s2)

end Pros2

/-! ## Drivers and specification vocabulary -/

/-- One `createFile` call of a driver. -/
structure Request where
  name : String
  size : Int
  permissions : Int
  deriving DecidableEq, Repr

/-- A driver that issues the requests one after another, as `main` does, and collects the
return codes. -/
def createAll (uninit : Int) (fopenOk : Bool) : List Request → FileSystem →
    Option (List Int × FileSystem)
  | [], s => some ([], s)
  | r :: rs, s =>
    match createFile uninit fopenOk r.name r.size r.permissions s with
    | none => none
    | some (code, s1) =>
      match createAll uninit fopenOk rs s1 with
      | none => none
      | some (codes, s2) => some (code :: codes, s2)

/-- The specification's block demand of a size: `ceil(size / DATA_BLOCK_SIZE)`. -/
def ceilBlocks (size : Int) : Int := (size + (DATA_BLOCK_SIZE - 1)) / DATA_BLOCK_SIZE

/-- Number of free entries (value `-1`) of an allocation table. -/
def freeCount (table : List Int) : Nat := table.count (-1)

/-- Every entry is the free marker or a block index. -/
def InRange (table : List Int) : Prop := ∀ x ∈ table, -1 ≤ x ∧ x < (MAX_DATA_BLOCKS : Int)

/-- The successor of index `i`: the value of its table entry. -/
def nextBlock (table : List Int) (i : Int) : Option Int :=
  if 0 ≤ i then table[i.toNat]? else none

/-- The index reached from `i` after following `n` links. -/
def follow (table : List Int) : Nat → Int → Option Int
  | 0, i => some i
  | n + 1, i => (nextBlock table i).bind (follow table n)

/-- Following the links from a non-free entry never comes back to it. -/
def Acyclic (table : List Int) : Prop :=
  ∀ (i n : Nat), table[i]? ≠ some (-1) → 0 < n → follow table n i ≠ some (i : Int)

/-- No index is the successor of two different indices. -/
def NoSharedSuccessor (table : List Int) : Prop :=
  ∀ (i j : Nat) (k : Int), i ≠ j → k ≠ -1 → table[i]? = some k → table[j]? ≠ some k

/-- The chain invariant in the specification's words: the non-free entries form disjoint
acyclic singly-linked chains. -/
def ChainInvariant (table : List Int) : Prop :=
  Acyclic table ∧ NoSharedSuccessor table

/-- The states in which the chain walks stay inside the arrays: declared extents, every
table entry the free marker or a block index, and a non-negative `fileCount`. -/
def Sound (s : FileSystem) : Prop :=
  WellFormed s ∧ InRange s.allocationTable ∧ 0 ≤ s.fileCount

/-- Effect of the scan loop on the entries from `currentBlock` on: the list recursion that
`allocLoop` is shown to compute (`v` is `file.firstDataBlock`, `need` is
`size / DATA_BLOCK_SIZE`, `a` is `allocatedBlocks`). -/
def allocList (v need : Int) : List Int → Int → List Int × Int
  | [], a => ([], a)
  | x :: xs, a =>
    if a < need then
      if x = -1 then
        (wrapInt (v + a) :: (allocList v need xs (a + 1)).1, (allocList v need xs (a + 1)).2)
      else (x :: (allocList v need xs a).1, (allocList v need xs a).2)
    else (x :: xs, a)

/-- The allocation table that the scan of `createFile` leaves. -/
def scanTable (uninit size : Int) (table : List Int) : List Int :=
  (allocList uninit (Int.tdiv size DATA_BLOCK_SIZE) table 0).1

/-- The state after a successful `createFile` whose `firstDataBlock` read as `0`. -/
def afterCreate (s : FileSystem) (name : String) (size permissions : Int) : FileSystem :=
  { s with
    allocationTable := scanTable 0 size s.allocationTable
    files := s.files.set s.fileCount.toNat
      { name := storedName name size, size := size, permissions := permissions,
        firstDataBlock := 0 }
    fileCount := s.fileCount + 1 }

/-! ## Sequences of calls -/

/-- One call of an operation of errorhandlepros4.c, with the host's answer to `fopen` and,
for `createFile`, the value found in the unassigned field. -/
inductive Op where
  | create (uninit : Int) (fopenOk : Bool) (name : String) (size permissions : Int)
  | list
  | read (fopenOk : Bool) (name : String)
  | write (fopenOk : Bool) (name : String) (content : List Char)
  deriving DecidableEq, Repr

/-- The state that one call leaves (`listFiles` only prints). -/
def step (op : Op) (s : FileSystem) : Option FileSystem :=
  match op with
  | Op.create uninit fopenOk name size permissions =>
    (createFile uninit fopenOk name size permissions s).map (fun r => r.2)
  | Op.list => some s
  | Op.read fopenOk name => (readFile fopenOk name s).map (fun r => r.2.1)
  | Op.write fopenOk name content => (writeFile fopenOk name content s).map (fun r => r.2)

/-- The state that a sequence of calls leaves. -/
def runOps : List Op → FileSystem → Option FileSystem
  | [], s => some s
  | op :: ops, s => (step op s).bind (runOps ops)

/-- No slot among the first `fileCount` holds the name. -/
def NoMatch (s : FileSystem) (name : String) : Prop :=
  ∀ (i : Nat) (f : FileMetadata), (i : Int) < s.fileCount → s.files[i]? = some f → f.name ≠ name

/-- A content of 3000 characters: 1024 times `a`, 1024 times `b`, 952 times `c`. -/
def content3000 : List Char :=
  List.replicate 1024 'a' ++ List.replicate 1024 'b' ++ List.replicate 952 'c'

/-! ## `createFile` (Evaluationpros5.c)

The body is that of errorhandlepros4.c; `pthread_mutex_lock(&fileSystemLock)` is taken at
line 95, after the checks, the scan and the walk, and released at line 100. The function
is therefore two pieces, the second being the critical section. -/

namespace Eval5

/-- What the part of `createFile` before the lock leaves behind: the code of an early
return, or the local `file` still to be inserted. -/
inductive Prepared where
  | returned (code : Int)
  | pending (file : FileMetadata)
  deriving DecidableEq, Repr

/-- Lines 44-93 of Evaluationpros5.c: the three checks, the scan, `fopen` and the walk,
all outside the lock. -/
def createFilePrepare (uninit : Int) (fopenOk : Bool) (name : String) (size permissions : Int)
    (s : FileSystem) : Option (Prepared × FileSystem) :=
  if s.fileCount ≥ MAX_FILES then some (Prepared.returned (-1), s)
  else if name.length > MAX_FILENAME_LENGTH then some (Prepared.returned (-2), s)
  else if size ≤ 0 ∨ size > MAX_DATA_BLOCKS * DATA_BLOCK_SIZE then
    some (Prepared.returned (-3), s)
  else
    let file : FileMetadata :=
      { name := storedName name size, size := size, permissions := permissions,
        firstDataBlock := uninit }
    match allocLoop file.firstDataBlock size MAX_DATA_BLOCKS s.allocationTable 0 0 with
    | none => none
    | some (table, allocatedBlocks) =>
      let s1 : FileSystem := { s with allocationTable := table }
      if allocatedBlocks < Int.tdiv size DATA_BLOCK_SIZE then some (Prepared.returned (-4), s1)
      else if fopenOk = false then some (Prepared.returned (-5), s1)
      else
        match walkLoop s1.dataBlocks s1.allocationTable size.toNat size file.firstDataBlock with
        | none => none
        | some _ => some (Prepared.pending file, s1)

/-- Lines 95-103 of Evaluationpros5.c: the critical section
`files[fileCount] = file; fileCount++;` and `return 0`. -/
def createFileCommit (file : FileMetadata) (s : FileSystem) : Option (Int × FileSystem) :=
  if 0 ≤ s.fileCount ∧ s.fileCount.toNat < s.files.length then
    some (0, { s with
                files := s.files.set s.fileCount.toNat file
                fileCount := s.fileCount + 1 })
  else none

/-- The function `createFile` of Evaluationpros5.c run by one thread without
interruption. -/
def createFile (uninit : Int) (fopenOk : Bool) (name : String) (size permissions : Int)
    (s : FileSystem) : Option (Int × FileSystem) :=
  match createFilePrepare uninit fopenOk name size permissions s with
  | none => none
  | some (Prepared.returned code, s1) => some (code, s1)
  | some (Prepared.pending file, s1) => createFileCommit file s1

end Eval5

/-! ## Sequences of `createFile` calls and the name field -/

/-- The calls `createFile(name, size, permissions)` of errorhandlepros4.c for a list of
requests, each paired with the host's answer to `fopen`, the unassigned field read as
`0`. -/
def createOps (calls : List (Bool × Request)) : List Op :=
  calls.map (fun c => Op.create 0 c.1 c.2.name c.2.size c.2.permissions)

namespace Pros2

/-- The state that a sequence of `createFile` calls of pros2.c leaves. -/
def createSeq : List (Bool × Request) → FileSystem → Option FileSystem
  | [], s => some s
  | c :: cs, s =>
    (createFile c.1 c.2.name c.2.size c.2.permissions s).bind (fun r => createSeq cs r.2)

end Pros2

/-- Every descriptor among the first `fileCount` slots has head `0`. -/
def HeadsZero (s : FileSystem) : Prop :=
  ∀ (i : Nat) (f : FileMetadata), (i : Int) < s.fileCount → s.files[i]? = some f →
    f.firstDataBlock = 0

/-- Every slot of the directory has head `0`, as in zero-initialised static storage. -/
def AllHeadsZero (s : FileSystem) : Prop := ∀ f ∈ s.files, f.firstDataBlock = 0

/-- A name of exactly `MAX_FILENAME_LENGTH` characters. -/
def name100 : String := String.mk (List.replicate 100 'a')

/-- The name and its terminator fit the field `char name[MAX_FILENAME_LENGTH]`. -/
def FitsNameField (name : String) : Prop := name.length + 1 ≤ MAX_FILENAME_LENGTH

/-! ## The stored name -/

/-- A name shorter than the field is stored as it is. -/
theorem storedName_of_short (name : String) (size : Int)
    (h : name.length < MAX_FILENAME_LENGTH) : storedName name size = name :=
  if_pos h

/-- The fourth byte of every size that `createFile` stores is zero, so the string read at
an unterminated name field ends inside `size`. -/
theorem intBytes_fourth (size : Int) (h0 : 0 ≤ size)
    (h1 : size ≤ MAX_DATA_BLOCKS * DATA_BLOCK_SIZE) : (intBytes size)[3]? = some 0 := by
  have hcap : (MAX_DATA_BLOCKS : Int) * DATA_BLOCK_SIZE = 1024000 := by decide
  rw [hcap] at h1
  have hmod : size % 4294967296 = size := Int.emod_eq_of_lt h0 (by omega)
  have hlt : size.toNat < 16777216 := by omega
  show some ((size % 4294967296).toNat / 16777216 % 256) = some 0
  rw [hmod, Nat.div_eq_of_lt hlt]

/-- With size 1024 (bytes `00 04 00 00`) the 100 characters are followed by a zero byte. -/
theorem storedName_name100_1024 : storedName name100 1024 = name100 := by decide

/-- With size 1025 (bytes `01 04 00 00`) the 100 characters are followed by two more. -/
theorem storedName_name100_1025 :
    storedName name100 1025 = name100 ++ String.mk [Char.ofNat 1, Char.ofNat 4] := by decide

/-! ## The scan loop -/

theorem allocList_of_not_lt (v need : Int) (xs : List Int) (a : Int) (h : ¬ a < need) :
    allocList v need xs a = (xs, a) := by
  cases xs with
  | nil => rfl
  | cons x xs => simp [allocList, h]

theorem take_set_self (l : List Int) (n : Nat) (a : Int) : (l.set n a).take n = l.take n := by
  induction l generalizing n with
  | nil => simp
  | cons x xs ih =>
    cases n with
    | zero => simp
    | succ n => simp [List.set, ih]

theorem take_succ_getElem (l : List Int) (n : Nat) (h : n < l.length) :
    l.take (n + 1) = l.take n ++ [l[n]] := by
  rw [List.take_succ, List.getElem?_eq_getElem h]
  rfl

theorem allocLoop_eq_allocList (v size : Int) :
    ∀ (fuel : Nat) (table : List Int) (a : Int) (cur : Nat),
      table.length = MAX_DATA_BLOCKS → MAX_DATA_BLOCKS ≤ cur + fuel → cur ≤ MAX_DATA_BLOCKS →
      allocLoop v size fuel table a cur =
        some (table.take cur ++ (allocList v (Int.tdiv size DATA_BLOCK_SIZE) (table.drop cur) a).1,
              (allocList v (Int.tdiv size DATA_BLOCK_SIZE) (table.drop cur) a).2) := by
  intro fuel
  induction fuel with
  | zero =>
    intro table a cur hlen hf hc
    have hcur : cur = table.length := by omega
    rw [hcur, List.drop_length, List.take_length]
    simp [allocLoop, allocList]
  | succ fuel ih =>
    intro table a cur hlen hf hc
    unfold allocLoop
    by_cases hg : a < Int.tdiv size DATA_BLOCK_SIZE ∧ cur < MAX_DATA_BLOCKS
    · rw [if_pos hg]
      have hlt : cur < table.length := by omega
      have hdrop : table.drop cur = table[cur] :: table.drop (cur + 1) :=
        List.drop_eq_getElem_cons hlt
      rw [List.getElem?_eq_getElem hlt]
      simp only
      by_cases he : table[cur] = -1
      · rw [if_pos he, ih _ _ _ (by simpa using hlen) (by omega) (by omega)]
        have hlt2 : cur < (table.set cur (wrapInt (v + a))).length := by simpa using hlt
        rw [hdrop, List.drop_set_of_lt _ _ (Nat.lt_succ_self cur), take_succ_getElem _ _ hlt2,
          take_set_self]
        simp [allocList, hg.1, he]
      · rw [if_neg he, ih _ _ _ hlen (by omega) (by omega)]
        rw [hdrop]
        simp only [allocList, hg.1, he, if_true, if_false]
        rw [take_succ_getElem _ _ hlt, List.append_assoc]
        rfl
    · rw [if_neg hg]
      by_cases ha : a < Int.tdiv size DATA_BLOCK_SIZE
      · have hcur : cur = table.length := by omega
        rw [hcur, List.drop_length, List.take_length]
        simp [allocList]
      · rw [allocList_of_not_lt _ _ _ _ ha]
        simp

theorem allocList_length (v need : Int) (xs : List Int) (a : Int) :
    (allocList v need xs a).1.length = xs.length := by
  induction xs generalizing a with
  | nil => rfl
  | cons x xs ih =>
    unfold allocList
    split_ifs <;> simp [ih]

theorem freeCount_cons (x : Int) (xs : List Int) :
    freeCount (x :: xs) = freeCount xs + (if x = -1 then 1 else 0) := by
  unfold freeCount
  rw [List.count_cons]
  simp

theorem freeCount_append (xs ys : List Int) :
    freeCount (xs ++ ys) = freeCount xs + freeCount ys := by
  unfold freeCount
  exact List.count_append _ _ _

/-- The scan stops at `need` when enough entries are free. -/
theorem allocList_snd_of_enough (v need : Int) (xs : List Int) (a : Int)
    (ha : a ≤ need) (h : need ≤ a + freeCount xs) : (allocList v need xs a).2 = need := by
  induction xs generalizing a with
  | nil =>
    simp [freeCount] at h
    simp [allocList]; omega
  | cons x xs ih =>
    rw [freeCount_cons] at h
    unfold allocList
    by_cases hlt : a < need
    · rw [if_pos hlt]
      by_cases hx : x = -1
      · rw [if_pos hx]
        rw [if_pos hx] at h
        exact ih (a + 1) (by omega) (by push_cast at h; omega)
      · rw [if_neg hx]
        rw [if_neg hx] at h
        exact ih a ha (by simpa using h)
    · rw [if_neg hlt]
      show a = need
      omega

/-- The scan takes every free entry when too few are free. -/
theorem allocList_snd_of_short (v need : Int) (xs : List Int) (a : Int)
    (h : a + freeCount xs < need) : (allocList v need xs a).2 = a + freeCount xs := by
  induction xs generalizing a with
  | nil => simp [allocList, freeCount]
  | cons x xs ih =>
    rw [freeCount_cons] at h ⊢
    unfold allocList
    have hlt : a < need := by omega
    rw [if_pos hlt]
    by_cases hx : x = -1
    · rw [if_pos hx, if_pos hx]
      rw [if_pos hx] at h
      show (allocList v need xs (a + 1)).2 = _
      rw [ih (a + 1) (by push_cast at h; omega)]
      push_cast; omega
    · rw [if_neg hx, if_neg hx]
      rw [if_neg hx] at h
      show (allocList v need xs a).2 = _
      rw [ih a (by simpa using h)]
      simp

/-- Free entries after the scan, when no stored value is the free marker. -/
theorem allocList_freeCount (v need : Int) (xs : List Int) (a : Int)
    (hv : ∀ k, a ≤ k → k < need → wrapInt (v + k) ≠ -1) :
    (freeCount (allocList v need xs a).1 : Int) + ((allocList v need xs a).2 - a)
      = freeCount xs := by
  induction xs generalizing a with
  | nil => simp [allocList, freeCount]
  | cons x xs ih =>
    unfold allocList
    by_cases hlt : a < need
    · rw [if_pos hlt]
      by_cases hx : x = -1
      · rw [if_pos hx]
        have h1 := ih (a + 1) (fun k hk1 hk2 => hv k (by omega) hk2)
        have h2 := hv a (le_refl a) hlt
        simp only [freeCount_cons, if_neg h2, if_pos hx]
        push_cast
        omega
      · rw [if_neg hx]
        have h1 := ih a hv
        simp only [freeCount_cons, if_neg hx]
        push_cast
        omega
    · rw [if_neg hlt]
      simp

/-- A property of all entries and of all stored values holds of the table after the scan. -/
theorem allocList_forall (P : Int → Prop) (v need : Int) (xs : List Int) (a : Int)
    (hxs : ∀ x ∈ xs, P x) (hv : ∀ k, a ≤ k → k < need → P (wrapInt (v + k))) :
    ∀ x ∈ (allocList v need xs a).1, P x := by
  induction xs generalizing a with
  | nil => simp [allocList]
  | cons x xs ih =>
    unfold allocList
    have hx0 : P x := hxs x (List.mem_cons_self _ _)
    have hxs' : ∀ y ∈ xs, P y := fun y hy => hxs y (List.mem_cons_of_mem _ hy)
    by_cases hlt : a < need
    · rw [if_pos hlt]
      by_cases hx : x = -1
      · rw [if_pos hx]
        intro y hy
        rcases List.mem_cons.1 hy with h | h
        · rw [h]; exact hv a (le_refl a) hlt
        · exact ih (a + 1) hxs' (fun k hk1 hk2 => hv k (by omega) hk2) y h
      · rw [if_neg hx]
        intro y hy
        rcases List.mem_cons.1 hy with h | h
        · rw [h]; exact hx0
        · exact ih a hxs' hv y h
    · rw [if_neg hlt]
      exact hxs

theorem wrapInt_of_range (x : Int) (h1 : -2147483648 ≤ x) (h2 : x < 2147483648) :
    wrapInt x = x := by
  unfold wrapInt
  omega

theorem memsetInt_neg_one : memsetInt (-1) = -1 := by decide


theorem blockSize_pos : (0 : Int) < (DATA_BLOCK_SIZE : Int) := by decide

/-- The chain walk of `createFile` stays inside the arrays when every table entry is the
free marker or a block index, and the fuel `size` is never used up. -/
theorem walkLoop_isSome (dataBlocks : List DataBlock) (table : List Int)
    (hd : dataBlocks.length = MAX_DATA_BLOCKS) (ht : table.length = MAX_DATA_BLOCKS)
    (hr : ∀ x ∈ table, -1 ≤ x ∧ x < (MAX_DATA_BLOCKS : Int)) :
    ∀ (fuel : Nat) (size b : Int), size ≤ fuel → -1 ≤ b → b < (MAX_DATA_BLOCKS : Int) →
      ∃ l, walkLoop dataBlocks table fuel size b = some l := by
  intro fuel
  induction fuel with
  | zero =>
    intro size b hs _ _
    refine ⟨[], ?_⟩
    unfold walkLoop
    rw [if_neg]
    intro h
    have := h.1
    simp at hs
    omega
  | succ fuel ih =>
    intro size b hs hb1 hb2
    unfold walkLoop
    by_cases hg : size > 0 ∧ b ≠ -1
    · rw [if_pos hg]
      have hb0 : 0 ≤ b := by have := hg.2; omega
      rw [if_pos hb0]
      have hlt : b.toNat < MAX_DATA_BLOCKS := by omega
      have hlt1 : b.toNat < dataBlocks.length := by omega
      have hlt2 : b.toNat < table.length := by omega
      rw [List.getElem?_eq_getElem hlt1, List.getElem?_eq_getElem hlt2]
      simp only
      have hmem := hr _ (List.getElem_mem hlt2)
      have hbs := blockSize_pos
      obtain ⟨l, hl⟩ := ih (size - DATA_BLOCK_SIZE) table[b.toNat]
        (by push_cast at hs; omega) hmem.1 hmem.2
      exact ⟨b :: l, by rw [hl]; rfl⟩
    · rw [if_neg hg]
      exact ⟨[], rfl⟩

/-- The part of `createFile` after the three validation checks, with the scan loop
replaced by the list recursion it computes. -/
theorem createFile_of_valid (uninit : Int) (fopenOk : Bool) (name : String)
    (size permissions : Int) (s : FileSystem)
    (ht : s.allocationTable.length = MAX_DATA_BLOCKS)
    (h1 : s.fileCount < MAX_FILES) (h2 : name.length ≤ MAX_FILENAME_LENGTH)
    (h3 : 0 < size) (h4 : size ≤ MAX_DATA_BLOCKS * DATA_BLOCK_SIZE) :
    createFile uninit fopenOk name size permissions s =
      if (allocList uninit (Int.tdiv size DATA_BLOCK_SIZE) s.allocationTable 0).2
          < Int.tdiv size DATA_BLOCK_SIZE then
        some (-4, { s with allocationTable :=
          (allocList uninit (Int.tdiv size DATA_BLOCK_SIZE) s.allocationTable 0).1 })
      else if fopenOk = false then
        some (-5, { s with allocationTable :=
          (allocList uninit (Int.tdiv size DATA_BLOCK_SIZE) s.allocationTable 0).1 })
      else
        match walkLoop s.dataBlocks
            (allocList uninit (Int.tdiv size DATA_BLOCK_SIZE) s.allocationTable 0).1
            size.toNat size uninit with
        | none => none
        | some _ =>
          if 0 ≤ s.fileCount ∧ s.fileCount.toNat < s.files.length then
            some (0, { s with
              allocationTable :=
                (allocList uninit (Int.tdiv size DATA_BLOCK_SIZE) s.allocationTable 0).1
              files := s.files.set s.fileCount.toNat
                { name := storedName name size, size := size, permissions := permissions,
                  firstDataBlock := uninit }
              fileCount := s.fileCount + 1 })
          else none := by
  unfold createFile
  rw [if_neg (by omega), if_neg (by omega), if_neg (by omega)]
  simp only
  rw [allocLoop_eq_allocList uninit size MAX_DATA_BLOCKS s.allocationTable 0 0 ht (by omega)
    (by omega)]
  simp only [List.take_zero, List.drop_zero, List.nil_append]

/-! ## `createFile` in terms of the free count -/

theorem maxBlocks_eq : (MAX_DATA_BLOCKS : Int) = 1000 := by decide

theorem maxFiles_eq : (MAX_FILES : Int) = 100 := by decide

theorem blockSize_eq : (DATA_BLOCK_SIZE : Int) = 1024 := by decide

theorem capacity_eq : (MAX_DATA_BLOCKS : Int) * DATA_BLOCK_SIZE = 1024000 := by decide

/-- For a positive size the C quotient `size / DATA_BLOCK_SIZE` is the floor. -/
theorem tdiv_blockSize (size : Int) (h : 0 < size) :
    Int.tdiv size DATA_BLOCK_SIZE = size / 1024 := by
  rw [Int.tdiv_eq_ediv (le_of_lt h) (le_of_lt blockSize_pos), blockSize_eq]

theorem scanTable_length (uninit size : Int) (table : List Int) :
    (scanTable uninit size table).length = table.length :=
  allocList_length _ _ _ _

/-- With too few free entries `createFile` returns `-4` and keeps the scanned table. -/
theorem createFile_insufficient (uninit : Int) (fopenOk : Bool) (name : String)
    (size permissions : Int) (s : FileSystem)
    (ht : s.allocationTable.length = MAX_DATA_BLOCKS)
    (h1 : s.fileCount < MAX_FILES) (h2 : name.length ≤ MAX_FILENAME_LENGTH)
    (h3 : 0 < size) (h4 : size ≤ MAX_DATA_BLOCKS * DATA_BLOCK_SIZE)
    (hfree : (freeCount s.allocationTable : Int) < Int.tdiv size DATA_BLOCK_SIZE) :
    createFile uninit fopenOk name size permissions s =
      some (-4, { s with allocationTable := scanTable uninit size s.allocationTable }) := by
  rw [createFile_of_valid uninit fopenOk name size permissions s ht h1 h2 h3 h4]
  have h := allocList_snd_of_short uninit (Int.tdiv size DATA_BLOCK_SIZE) s.allocationTable 0
    (by omega)
  rw [if_pos (by rw [h]; omega)]
  rfl

/-- The values stored by the scan when `firstDataBlock` reads as `0` are not the free
marker. -/
theorem stored_ne_free (k : Int) (h0 : 0 ≤ k) (h1 : k < 2147483648) : wrapInt (0 + k) ≠ -1 := by
  rw [zero_add, wrapInt_of_range k (by omega) h1]
  omega

/-- Free entries after a failed scan with `firstDataBlock` read as `0`: none. -/
theorem scanTable_freeCount_of_short (size : Int) (table : List Int)
    (h3 : 0 < size) (h4 : size ≤ MAX_DATA_BLOCKS * DATA_BLOCK_SIZE)
    (hfree : (freeCount table : Int) < Int.tdiv size DATA_BLOCK_SIZE) :
    freeCount (scanTable 0 size table) = 0 := by
  have hs := allocList_snd_of_short 0 (Int.tdiv size DATA_BLOCK_SIZE) table 0 (by omega)
  have hsize : 0 < size := h3
  have hneed : Int.tdiv size DATA_BLOCK_SIZE ≤ 1000 := by
    rw [tdiv_blockSize size hsize]
    rw [capacity_eq] at h4
    omega
  have hf := allocList_freeCount 0 (Int.tdiv size DATA_BLOCK_SIZE) table 0
    (fun k hk1 hk2 => stored_ne_free k hk1 (by omega))
  rw [hs] at hf
  unfold scanTable
  omega

/-- Free entries after a successful scan with `firstDataBlock` read as `0`. -/
theorem scanTable_freeCount_of_enough (size : Int) (table : List Int)
    (h3 : 0 < size) (h4 : size ≤ MAX_DATA_BLOCKS * DATA_BLOCK_SIZE)
    (hfree : Int.tdiv size DATA_BLOCK_SIZE ≤ freeCount table) :
    (freeCount (scanTable 0 size table) : Int)
      = freeCount table - Int.tdiv size DATA_BLOCK_SIZE := by
  have hneed0 : 0 ≤ Int.tdiv size DATA_BLOCK_SIZE := by
    rw [tdiv_blockSize size h3]; omega
  have hneed : Int.tdiv size DATA_BLOCK_SIZE ≤ 1000 := by
    rw [tdiv_blockSize size h3]
    rw [capacity_eq] at h4
    omega
  have hs := allocList_snd_of_enough 0 (Int.tdiv size DATA_BLOCK_SIZE) table 0 hneed0
    (by omega)
  have hf := allocList_freeCount 0 (Int.tdiv size DATA_BLOCK_SIZE) table 0
    (fun k hk1 hk2 => stored_ne_free k hk1 (by omega))
  rw [hs] at hf
  unfold scanTable
  omega

/-- The scan with `firstDataBlock` read as `0` keeps every entry the free marker or a
block index. -/
theorem scanTable_inRange (size : Int) (table : List Int)
    (h3 : 0 < size) (h4 : size ≤ MAX_DATA_BLOCKS * DATA_BLOCK_SIZE) (hr : InRange table) :
    InRange (scanTable 0 size table) := by
  have hneed : Int.tdiv size DATA_BLOCK_SIZE ≤ 1000 := by
    rw [tdiv_blockSize size h3]
    rw [capacity_eq] at h4
    omega
  refine allocList_forall (fun x => -1 ≤ x ∧ x < (MAX_DATA_BLOCKS : Int)) 0 _ table 0 hr ?_
  intro k hk1 hk2
  rw [zero_add, wrapInt_of_range k (by omega) (by omega), maxBlocks_eq]
  omega

/-- With enough free entries, a successful host-file open and `firstDataBlock` read as `0`,
`createFile` returns `0` and stores the descriptor at slot `fileCount`. -/
theorem createFile_success (name : String) (size permissions : Int) (s : FileSystem)
    (hwf : WellFormed s) (hr : InRange s.allocationTable)
    (h0 : 0 ≤ s.fileCount) (h1 : s.fileCount < MAX_FILES)
    (h2 : name.length ≤ MAX_FILENAME_LENGTH)
    (h3 : 0 < size) (h4 : size ≤ MAX_DATA_BLOCKS * DATA_BLOCK_SIZE)
    (hfree : Int.tdiv size DATA_BLOCK_SIZE ≤ freeCount s.allocationTable) :
    createFile 0 true name size permissions s =
      some (0, { s with
        allocationTable := scanTable 0 size s.allocationTable
        files := s.files.set s.fileCount.toNat
          { name := storedName name size, size := size, permissions := permissions,
            firstDataBlock := 0 }
        fileCount := s.fileCount + 1 }) := by
  obtain ⟨hfl, hdl, htl, _⟩ := hwf
  rw [createFile_of_valid 0 true name size permissions s htl h1 h2 h3 h4]
  have hneed0 : 0 ≤ Int.tdiv size DATA_BLOCK_SIZE := by
    rw [tdiv_blockSize size h3]; omega
  have hs := allocList_snd_of_enough 0 (Int.tdiv size DATA_BLOCK_SIZE) s.allocationTable 0
    hneed0 (by omega)
  rw [if_neg (by rw [hs]; omega), if_neg (by decide)]
  obtain ⟨l, hl⟩ := walkLoop_isSome s.dataBlocks (scanTable 0 size s.allocationTable) hdl
    (by rw [scanTable_length]; exact htl) (scanTable_inRange size _ h3 h4 hr)
    size.toNat size 0 (by omega) (by omega) (by rw [maxBlocks_eq]; omega)
  unfold scanTable at hl
  rw [hl]
  simp only
  have hmf := maxFiles_eq
  rw [if_pos ⟨h0, by omega⟩]
  rfl

/-! ## The initial state and the directory listing -/

theorem init_table (s : FileSystem) :
    (initializeFileSystem s).allocationTable = List.replicate MAX_DATA_BLOCKS (-1) := by
  unfold initializeFileSystem
  rw [memsetInt_neg_one]

theorem init_freeCount (s : FileSystem) :
    freeCount (initializeFileSystem s).allocationTable = MAX_DATA_BLOCKS := by
  rw [init_table]
  unfold freeCount
  exact List.count_replicate_self _ _

theorem init_inRange (s : FileSystem) : InRange (initializeFileSystem s).allocationTable := by
  rw [init_table]
  intro x hx
  rw [List.eq_of_mem_replicate hx, maxBlocks_eq]
  omega

theorem init_wellFormed (s : FileSystem) (h : WellFormed s) :
    WellFormed (initializeFileSystem s) := by
  obtain ⟨h1, h2, _, h4⟩ := h
  exact ⟨h1, h2, by rw [init_table]; exact List.length_replicate _ _, h4⟩

theorem bootState_wellFormed : WellFormed bootState := by
  refine ⟨List.length_replicate _ _, List.length_replicate _ _, List.length_replicate _ _, ?_⟩
  intro b hb
  rw [List.eq_of_mem_replicate hb]
  exact List.length_replicate _ _

theorem take_succ_set_self {α : Type} (l : List α) (n : Nat) (a : α) (h : n < l.length) :
    (l.set n a).take (n + 1) = l.take n ++ [a] := by
  induction l generalizing n with
  | nil => simp at h
  | cons x xs ih =>
    cases n with
    | zero => simp
    | succ n =>
      simp only [List.set_cons_succ, List.take_succ_cons, List.cons_append]
      rw [ih n (by simpa using h)]

/-- Storing a descriptor at slot `fileCount` and incrementing `fileCount` appends one line
to the listing. -/
theorem listFiles_insert (s : FileSystem) (file : FileMetadata) (table : List Int)
    (h0 : 0 ≤ s.fileCount) (hlt : s.fileCount.toNat < s.files.length) :
    listFiles { s with
        allocationTable := table
        files := s.files.set s.fileCount.toNat file
        fileCount := s.fileCount + 1 }
      = listFiles s ++ [(file.name, file.size, file.permissions)] := by
  unfold listFiles
  have h : (s.fileCount + 1).toNat = s.fileCount.toNat + 1 := by omega
  simp only [h]
  rw [take_succ_set_self _ _ _ hlt, List.map_append]
  rfl

/-- The scan of a table whose first two entries are free, for a two-block request. -/
theorem allocList_two (v : Int) (rest : List Int) :
    allocList v 2 (-1 :: -1 :: rest) 0 = (wrapInt (v + 0) :: wrapInt (v + 1) :: rest, 2) := by
  simp [allocList, allocList_of_not_lt]

/-! ## The iteration bounds are never reached

Each loop of the embedding takes a bound on its number of rounds. The bounds passed by
the callers are large enough: a larger bound gives the same result. -/

theorem walkLoop_bound (dataBlocks : List DataBlock) (table : List Int) :
    ∀ (fuel : Nat) (size b : Int), size ≤ fuel →
      walkLoop dataBlocks table (fuel + 1) size b = walkLoop dataBlocks table fuel size b := by
  intro fuel
  have hbs := blockSize_pos
  induction fuel with
  | zero =>
    intro size b hs
    have h : ¬ (size > 0 ∧ b ≠ -1) := by
      intro hg
      have := hg.1
      simp at hs
      omega
    simp only [walkLoop, if_neg h]
  | succ fuel ih =>
    intro size b hs
    rw [walkLoop]
    conv_rhs => rw [walkLoop]
    by_cases hg : size > 0 ∧ b ≠ -1
    · simp only [if_pos hg]
      by_cases hb : 0 ≤ b
      · simp only [if_pos hb]
        cases dataBlocks[b.toNat]? with
        | none => rfl
        | some blk =>
          cases table[b.toNat]? with
          | none => rfl
          | some next =>
            simp only
            rw [ih (size - DATA_BLOCK_SIZE) next (by push_cast at hs; omega)]
      · simp only [if_neg hb]
    · simp only [if_neg hg]

theorem readLoop_bound (dataBlocks : List DataBlock) (table : List Int) :
    ∀ (fuel : Nat) (size b : Int), size ≤ fuel →
      readLoop dataBlocks table (fuel + 1) size b = readLoop dataBlocks table fuel size b := by
  intro fuel
  have hbs := blockSize_pos
  induction fuel with
  | zero =>
    intro size b hs
    have h : ¬ (size > 0 ∧ b ≠ -1) := by
      intro hg
      have := hg.1
      simp at hs
      omega
    simp only [readLoop, if_neg h]
  | succ fuel ih =>
    intro size b hs
    rw [readLoop]
    conv_rhs => rw [readLoop]
    by_cases hg : size > 0 ∧ b ≠ -1
    · simp only [if_pos hg]
      by_cases hb : 0 ≤ b
      · simp only [if_pos hb]
        cases dataBlocks[b.toNat]? with
        | none => rfl
        | some blk =>
          cases table[b.toNat]? with
          | none => rfl
          | some next =>
            simp only
            rw [ih (size - DATA_BLOCK_SIZE) next (by push_cast at hs; omega)]
      · simp only [if_neg hb]
    · simp only [if_neg hg]

theorem writeLoop_bound (table : List Int) (size : Int) :
    ∀ (fuel : Nat) (dataBlocks : List DataBlock) (content : List Char)
      (contentLength blockCount b : Int), contentLength ≤ fuel →
      writeLoop table size (fuel + 1) dataBlocks content contentLength blockCount b
        = writeLoop table size fuel dataBlocks content contentLength blockCount b := by
  intro fuel
  have hbs := blockSize_pos
  induction fuel with
  | zero =>
    intro dataBlocks content contentLength blockCount b hs
    have h : ¬ (blockCount < Int.tdiv size DATA_BLOCK_SIZE ∧ b ≠ -1 ∧ contentLength > 0) := by
      intro hg
      have := hg.2.2
      simp at hs
      omega
    simp only [writeLoop, if_neg h]
  | succ fuel ih =>
    intro dataBlocks content contentLength blockCount b hs
    rw [writeLoop]
    conv_rhs => rw [writeLoop]
    by_cases hg : blockCount < Int.tdiv size DATA_BLOCK_SIZE ∧ b ≠ -1 ∧ contentLength > 0
    · simp only [if_pos hg]
      by_cases hb : 0 ≤ b
      · simp only [if_pos hb]
        cases dataBlocks[b.toNat]? with
        | none => rfl
        | some blk =>
          cases table[b.toNat]? with
          | none => rfl
          | some next =>
            simp only
            rw [ih _ _ (contentLength - DATA_BLOCK_SIZE) _ next (by push_cast at hs; omega)]
      · simp only [if_neg hb]
    · simp only [if_neg hg]

theorem findFile_bound (files : List FileMetadata) (fileCount : Int) (name : String) :
    ∀ (fuel i : Nat), fileCount ≤ i + fuel →
      findFile files fileCount name (fuel + 1) i = findFile files fileCount name fuel i := by
  intro fuel
  induction fuel with
  | zero =>
    intro i hs
    have h : ¬ ((i : Int) < fileCount) := by
      simp at hs
      omega
    simp only [findFile, if_neg h]
  | succ fuel ih =>
    intro i hs
    rw [findFile]
    conv_rhs => rw [findFile]
    by_cases hg : (i : Int) < fileCount
    · simp only [if_pos hg]
      cases files[i]? with
      | none => rfl
      | some f =>
        simp only
        by_cases hf : f.name = name
        · simp only [if_pos hf]
        · simp only [if_neg hf]
          rw [ih (i + 1) (by push_cast at hs ⊢; omega)]
    · simp only [if_neg hg]

theorem findSlot_bound (files : List FileMetadata) :
    ∀ (fuel i : Nat), MAX_FILES ≤ i + fuel →
      Pros2.findSlot files (fuel + 1) i = Pros2.findSlot files fuel i := by
  intro fuel
  induction fuel with
  | zero =>
    intro i hs
    have h : ¬ (i < MAX_FILES) := by omega
    simp only [Pros2.findSlot, if_neg h]
  | succ fuel ih =>
    intro i hs
    rw [Pros2.findSlot]
    conv_rhs => rw [Pros2.findSlot]
    by_cases hg : i < MAX_FILES
    · simp only [if_pos hg]
      cases files[i]? with
      | none => rfl
      | some f =>
        simp only
        by_cases hf : f.size = 0
        · simp only [if_pos hf]
        · simp only [if_neg hf]
          rw [ih (i + 1) (by omega)]
    · simp only [if_neg hg]

theorem allocLoop_bound (v size : Int) :
    ∀ (fuel : Nat) (table : List Int) (a : Int) (cur : Nat), MAX_DATA_BLOCKS ≤ cur + fuel →
      allocLoop v size (fuel + 1) table a cur = allocLoop v size fuel table a cur := by
  intro fuel
  induction fuel with
  | zero =>
    intro table a cur hs
    have h : ¬ (a < Int.tdiv size DATA_BLOCK_SIZE ∧ cur < MAX_DATA_BLOCKS) := by
      intro hg
      have := hg.2
      omega
    simp only [allocLoop, if_neg h]
  | succ fuel ih =>
    intro table a cur hs
    rw [allocLoop]
    conv_rhs => rw [allocLoop]
    by_cases hg : a < Int.tdiv size DATA_BLOCK_SIZE ∧ cur < MAX_DATA_BLOCKS
    · simp only [if_pos hg]
      cases table[cur]? with
      | none => rfl
      | some entry =>
        simp only
        by_cases he : entry = -1
        · simp only [if_pos he]
          rw [ih _ _ (cur + 1) (by omega)]
        · simp only [if_neg he]
          rw [ih _ _ (cur + 1) (by omega)]
    · simp only [if_neg hg]

/-! ## Claims about the block chain -/

/-- C1 (the code breaks the claim): after `initializeFileSystem`,
`createFile("a.txt", 2048, 644)` with the unassigned `firstDataBlock` read as `0` returns
`0` and leaves `allocationTable[0] = 0`, `allocationTable[1] = 1` and the other entries
free, the descriptor's `firstDataBlock` is `0`, and the code's own walk from that head
visits block `0` twice; pros2.c, whose `firstDataBlock` is zero-initialised static
storage, leaves the same entries; whatever value the unassigned field holds, the first two
entries are never `1` and `-1`. -/
theorem createFile_chain_not_linked :
    (createFile 0 true "a.txt" 2048 644 (initializeFileSystem bootState)).map
        (fun r => (r.1, r.2.allocationTable, (r.2.files[0]?).map (fun f => f.firstDataBlock)))
      = some (0, 0 :: 1 :: List.replicate 998 (-1), some 0)
    ∧ walkLoop bootState.dataBlocks (0 :: 1 :: List.replicate 998 (-1)) 2048 2048 0
      = some [0, 0]
    ∧ (Pros2.createFile true "a.txt" 2048 644 (initializeFileSystem bootState)).map
        (fun r => (r.1, r.2.allocationTable.take 3)) = some (Pros2.Message.created, [0, 1, -1])
    ∧ ∀ uninit : Int,
        (createFile uninit true "a.txt" 2048 644 (initializeFileSystem bootState)).map
          (fun r => r.2.allocationTable.take 2) ≠ some [1, -1] := by
  refine ⟨by decide, by decide, by decide, ?_⟩
  intro uninit
  rw [createFile_of_valid uninit true "a.txt" 2048 644 (initializeFileSystem bootState)
    (by rw [init_table]; exact List.length_replicate _ _) (by decide) (by decide) (by decide)
    (by decide)]
  have hneed : Int.tdiv 2048 (DATA_BLOCK_SIZE : Int) = 2 := by decide
  have htab : (initializeFileSystem bootState).allocationTable
      = -1 :: -1 :: List.replicate 998 (-1) := by
    rw [init_table]; rfl
  rw [hneed, htab, allocList_two]
  rw [if_neg (by simp), if_neg (by decide)]
  simp only
  cases walkLoop (initializeFileSystem bootState).dataBlocks
      (wrapInt (uninit + 0) :: wrapInt (uninit + 1) :: List.replicate 998 (-1))
      (2048 : Int).toNat 2048 uninit with
  | none => simp
  | some l =>
    simp only
    rw [if_pos (by decide)]
    simp only [Option.map_some', List.take_succ_cons, List.take_zero, ne_eq, Option.some.injEq,
      List.cons.injEq, and_true, not_and]
    unfold wrapInt
    omega

/-- C2 (the code breaks the claim): after `initializeFileSystem` and a successful
`createFile("a", 1024, 0)`, 999 entries are free; `createFile("b", 1024000, 0)` needs 1000,
returns `-4`, and leaves no entry free: the blocks taken by the failed scan stay taken. -/
theorem createFile_failure_keeps_blocks :
    ∃ s1 s2, createFile 0 true "a" 1024 0 (initializeFileSystem bootState) = some (0, s1)
      ∧ freeCount s1.allocationTable = 999
      ∧ createFile 0 true "b" 1024000 0 s1 = some (-4, s2)
      ∧ freeCount s2.allocationTable = 0 := by
  have hwf := init_wellFormed bootState bootState_wellFormed
  have hfree0 := init_freeCount bootState
  have hmb : MAX_DATA_BLOCKS = 1000 := rfl
  have hneed1 : Int.tdiv 1024 (DATA_BLOCK_SIZE : Int) = 1 := by decide
  have hneed2 : Int.tdiv 1024000 (DATA_BLOCK_SIZE : Int) = 1000 := by decide
  have h1 := createFile_success "a" 1024 0 (initializeFileSystem bootState) hwf
    (init_inRange bootState) (by decide) (by decide) (by decide) (by decide) (by decide)
    (by rw [hneed1, hfree0, hmb]; omega)
  have hf1 := scanTable_freeCount_of_enough 1024 (initializeFileSystem bootState).allocationTable
    (by decide) (by decide) (by rw [hneed1, hfree0, hmb]; omega)
  rw [hneed1, hfree0, hmb] at hf1
  have hf1' : freeCount (scanTable 0 1024 (initializeFileSystem bootState).allocationTable)
      = 999 := by omega
  have hshort : ((freeCount (scanTable 0 1024 (initializeFileSystem bootState).allocationTable)
      : Nat) : Int) < Int.tdiv 1024000 (DATA_BLOCK_SIZE : Int) := by
    rw [hf1', hneed2]; omega
  refine ⟨_, _, h1, hf1', createFile_insufficient 0 true "b" 1024000 0 _ ?_
    (by decide) (by decide) (by decide) (by decide) hshort, ?_⟩
  · show (scanTable 0 1024 (initializeFileSystem bootState).allocationTable).length = _
    rw [scanTable_length]; exact hwf.2.2.1
  · exact scanTable_freeCount_of_short 1024000 _ (by decide) (by decide) hshort

/-- C3 (the code breaks the claim): after `initializeFileSystem`, a successful create of a
1-byte file leaves all 1000 entries free and one of a 1025-byte file leaves 999 free: the
code gives `size / DATA_BLOCK_SIZE` rounded down, 0 and 1 blocks, where the ceiling is 1
and 2; its own walk still runs 1 and 2 rounds for these sizes. -/
theorem createFile_allocates_floor :
    (createFile 0 true "a" 1 0 (initializeFileSystem bootState)).map
        (fun r => (r.1, freeCount r.2.allocationTable)) = some (0, 1000)
    ∧ (createFile 0 true "a" 1025 0 (initializeFileSystem bootState)).map
        (fun r => (r.1, freeCount r.2.allocationTable)) = some (0, 999)
    ∧ ceilBlocks 1 = 1 ∧ ceilBlocks 1025 = 2
    ∧ walkLoop bootState.dataBlocks (List.replicate 1000 (-1)) 1 1 0 = some [0]
    ∧ walkLoop bootState.dataBlocks (0 :: List.replicate 999 (-1)) 1025 1025 0
        = some [0, 0] := by
  refine ⟨by decide, by decide, by decide, by decide, by decide, by decide⟩

/-- C4 (the code breaks the claim): the first two calls of `main`,
`createFile("file1.txt", 2048, 644)` and `createFile("file2.txt", 1024, 600)` after
`initializeFileSystem`, both succeed and leave a table that starts `0, 1, 0`: entry 0 is
its own successor, and index 0 is the successor of entries 0 and 2. The same table
results in pros2.c, where `firstDataBlock` is zero-initialised static storage. -/
theorem createFile_breaks_chain_invariant :
    (∃ r, createAll 0 true [⟨"file1.txt", 2048, 644⟩, ⟨"file2.txt", 1024, 600⟩]
          (initializeFileSystem bootState) = some r
        ∧ r.1 = [0, 0] ∧ ¬ Acyclic r.2.allocationTable
        ∧ ¬ NoSharedSuccessor r.2.allocationTable ∧ ¬ ChainInvariant r.2.allocationTable)
    ∧ (∃ r, ((Pros2.createFile true "file1.txt" 2048 644 (initializeFileSystem bootState)).bind
          (fun r1 => Pros2.createFile true "file2.txt" 1024 600 r1.2)) = some r
        ∧ r.1 = Pros2.Message.created ∧ ¬ Acyclic r.2.allocationTable
        ∧ ¬ NoSharedSuccessor r.2.allocationTable ∧ ¬ ChainInvariant r.2.allocationTable) := by
  have key : ∀ t : List Int, t.take 3 = [0, 1, 0] → ¬ Acyclic t ∧ ¬ NoSharedSuccessor t := by
    intro t ht
    have h0 : t[0]? = some 0 := by
      have := congrArg (fun l => l[0]?) ht
      simpa using this
    have h2 : t[2]? = some 0 := by
      have := congrArg (fun l => l[2]?) ht
      simpa using this
    constructor
    · intro hac
      refine hac 0 1 (by rw [h0]; decide) (by decide) ?_
      simp [follow, nextBlock, h0]
    · intro hns
      exact hns 0 2 0 (by decide) (by decide) h0 h2
  constructor
  · have h : (createAll 0 true [⟨"file1.txt", 2048, 644⟩, ⟨"file2.txt", 1024, 600⟩]
        (initializeFileSystem bootState)).map (fun r => (r.1, r.2.allocationTable.take 3))
        = some ([0, 0], [0, 1, 0]) := by decide
    cases hc : createAll 0 true [⟨"file1.txt", 2048, 644⟩, ⟨"file2.txt", 1024, 600⟩]
        (initializeFileSystem bootState) with
    | none => rw [hc] at h; simp at h
    | some r =>
      rw [hc] at h
      simp only [Option.map_some', Option.some.injEq, Prod.mk.injEq] at h
      have hk := key _ h.2
      exact ⟨r, rfl, h.1, hk.1, hk.2, fun hci => hk.1 hci.1⟩
  · have h : ((Pros2.createFile true "file1.txt" 2048 644 (initializeFileSystem bootState)).bind
          (fun r1 => Pros2.createFile true "file2.txt" 1024 600 r1.2)).map
          (fun r => (r.1, r.2.allocationTable.take 3))
        = some (Pros2.Message.created, [0, 1, 0]) := by decide
    cases hc : (Pros2.createFile true "file1.txt" 2048 644 (initializeFileSystem bootState)).bind
          (fun r1 => Pros2.createFile true "file2.txt" 1024 600 r1.2) with
    | none => rw [hc] at h; simp at h
    | some r =>
      rw [hc] at h
      simp only [Option.map_some', Option.some.injEq, Prod.mk.injEq] at h
      have hk := key _ h.2
      exact ⟨r, rfl, h.1, hk.1, hk.2, fun hci => hk.1 hci.1⟩

/-! ## Return codes of `createFile` -/

/-- Every result of `createFile` is one of six exits, each with its state change. -/
theorem createFile_cases (uninit : Int) (fopenOk : Bool) (name : String)
    (size permissions : Int) (s : FileSystem) (r : Int) (s' : FileSystem)
    (h : createFile uninit fopenOk name size permissions s = some (r, s')) :
    (r = -1 ∧ s' = s ∧ s.fileCount ≥ MAX_FILES)
    ∨ (r = -2 ∧ s' = s ∧ s.fileCount < MAX_FILES ∧ name.length > MAX_FILENAME_LENGTH)
    ∨ (r = -3 ∧ s' = s ∧ s.fileCount < MAX_FILES ∧ name.length ≤ MAX_FILENAME_LENGTH
        ∧ (size ≤ 0 ∨ size > MAX_DATA_BLOCKS * DATA_BLOCK_SIZE))
    ∨ (r = -4 ∧ ∃ table, s' = { s with allocationTable := table })
    ∨ (r = -5 ∧ fopenOk = false ∧ ∃ table, s' = { s with allocationTable := table })
    ∨ (r = 0 ∧ fopenOk = true ∧ 0 ≤ s.fileCount ∧ s.fileCount.toNat < s.files.length
        ∧ ∃ table, s' = { s with
            allocationTable := table
            files := s.files.set s.fileCount.toNat
              { name := storedName name size, size := size, permissions := permissions,
                firstDataBlock := uninit }
            fileCount := s.fileCount + 1 }) := by
  unfold createFile at h
  by_cases c1 : s.fileCount ≥ MAX_FILES
  · rw [if_pos c1] at h
    simp only [Option.some.injEq, Prod.mk.injEq] at h
    exact Or.inl ⟨h.1.symm, h.2.symm, c1⟩
  rw [if_neg c1] at h
  by_cases c2 : name.length > MAX_FILENAME_LENGTH
  · rw [if_pos c2] at h
    simp only [Option.some.injEq, Prod.mk.injEq] at h
    exact Or.inr (Or.inl ⟨h.1.symm, h.2.symm, by omega, c2⟩)
  rw [if_neg c2] at h
  by_cases c3 : size ≤ 0 ∨ size > MAX_DATA_BLOCKS * DATA_BLOCK_SIZE
  · rw [if_pos c3] at h
    simp only [Option.some.injEq, Prod.mk.injEq] at h
    exact Or.inr (Or.inr (Or.inl ⟨h.1.symm, h.2.symm, by omega, by omega, c3⟩))
  rw [if_neg c3] at h
  simp only at h
  cases ha : allocLoop uninit size MAX_DATA_BLOCKS s.allocationTable 0 0 with
  | none => rw [ha] at h; simp at h
  | some p =>
    obtain ⟨table, allocatedBlocks⟩ := p
    rw [ha] at h
    simp only at h
    by_cases c4 : allocatedBlocks < Int.tdiv size DATA_BLOCK_SIZE
    · rw [if_pos c4] at h
      simp only [Option.some.injEq, Prod.mk.injEq] at h
      exact Or.inr (Or.inr (Or.inr (Or.inl ⟨h.1.symm, table, h.2.symm⟩)))
    rw [if_neg c4] at h
    by_cases c5 : fopenOk = false
    · rw [if_pos c5] at h
      simp only [Option.some.injEq, Prod.mk.injEq] at h
      exact Or.inr (Or.inr (Or.inr (Or.inr (Or.inl ⟨h.1.symm, c5, table, h.2.symm⟩))))
    rw [if_neg c5] at h
    cases hw : walkLoop s.dataBlocks table size.toNat size uninit with
    | none => rw [hw] at h; simp at h
    | some l =>
      rw [hw] at h
      simp only at h
      by_cases c6 : 0 ≤ s.fileCount ∧ s.fileCount.toNat < s.files.length
      · rw [if_pos c6] at h
        simp only [Option.some.injEq, Prod.mk.injEq] at h
        exact Or.inr (Or.inr (Or.inr (Or.inr (Or.inr
          ⟨h.1.symm, by simpa using c5, c6.1, c6.2, table, h.2.symm⟩))))
      · rw [if_neg c6] at h
        simp at h

theorem init_sound (s : FileSystem) (h : WellFormed s) : Sound (initializeFileSystem s) :=
  ⟨init_wellFormed s h, init_inRange s, le_refl _⟩

/-- On a sound state with room in the directory and enough free entries, `createFile` with
`firstDataBlock` read as `0` returns `0` and yields `afterCreate`. -/
theorem createFile_sound (name : String) (size permissions : Int) (s : FileSystem)
    (hs : Sound s) (h1 : s.fileCount < MAX_FILES) (h2 : name.length ≤ MAX_FILENAME_LENGTH)
    (h3 : 0 < size) (h4 : size ≤ MAX_DATA_BLOCKS * DATA_BLOCK_SIZE)
    (hfree : Int.tdiv size DATA_BLOCK_SIZE ≤ freeCount s.allocationTable) :
    createFile 0 true name size permissions s = some (0, afterCreate s name size permissions) :=
  createFile_success name size permissions s hs.1 hs.2.1 hs.2.2 h1 h2 h3 h4 hfree

theorem afterCreate_sound (name : String) (size permissions : Int) (s : FileSystem)
    (hs : Sound s) (h3 : 0 < size) (h4 : size ≤ MAX_DATA_BLOCKS * DATA_BLOCK_SIZE) :
    Sound (afterCreate s name size permissions) := by
  obtain ⟨⟨hf, hd, ht, hb⟩, hr, h0⟩ := hs
  refine ⟨⟨?_, hd, ?_, hb⟩, scanTable_inRange size _ h3 h4 hr, ?_⟩
  · show (s.files.set _ _).length = _
    rw [List.length_set]; exact hf
  · show (scanTable 0 size s.allocationTable).length = _
    rw [scanTable_length]; exact ht
  · show 0 ≤ s.fileCount + 1
    omega

theorem afterCreate_freeCount (name : String) (size permissions : Int) (s : FileSystem)
    (h3 : 0 < size) (h4 : size ≤ MAX_DATA_BLOCKS * DATA_BLOCK_SIZE)
    (hfree : Int.tdiv size DATA_BLOCK_SIZE ≤ freeCount s.allocationTable) :
    (freeCount (afterCreate s name size permissions).allocationTable : Int)
      = freeCount s.allocationTable - Int.tdiv size DATA_BLOCK_SIZE :=
  scanTable_freeCount_of_enough size s.allocationTable h3 h4 hfree

theorem afterCreate_listFiles (name : String) (size permissions : Int) (s : FileSystem)
    (hs : Sound s) (h1 : s.fileCount < MAX_FILES) :
    listFiles (afterCreate s name size permissions)
      = listFiles s ++ [(storedName name size, size, permissions)] := by
  have hmf := maxFiles_eq
  have hfl : s.files.length = MAX_FILES := hs.1.1
  have hlt : s.fileCount.toNat < s.files.length := by
    have := hs.2.2
    omega
  exact listFiles_insert s _ _ hs.2.2 hlt

/-- The code's block count is at most the specification's, for a positive size. -/
theorem tdiv_le_ceilBlocks (size : Int) (h : 0 < size) :
    Int.tdiv size DATA_BLOCK_SIZE ≤ ceilBlocks size := by
  rw [tdiv_blockSize size h]
  unfold ceilBlocks
  rw [blockSize_eq]
  omega

theorem ceilBlocks_nonneg (size : Int) (h : 0 < size) : 0 ≤ ceilBlocks size := by
  unfold ceilBlocks
  rw [blockSize_eq]
  omega

theorem sum_ceilBlocks_nonneg (reqs : List Request) (h : ∀ r ∈ reqs, 0 < r.size) :
    0 ≤ (reqs.map (fun r => ceilBlocks r.size)).sum := by
  induction reqs with
  | nil => simp
  | cons r rs ih =>
    rw [List.map_cons, List.sum_cons]
    have h1 := ceilBlocks_nonneg r.size (h r (List.mem_cons_self _ _))
    have h2 := ih (fun x hx => h x (List.mem_cons_of_mem _ hx))
    omega

/-- Requests that fit the directory and the free entries all succeed, in order. -/
theorem createAll_sound (reqs : List Request) :
    ∀ s : FileSystem, Sound s → s.fileCount + reqs.length ≤ MAX_FILES →
      (∀ r ∈ reqs, r.name.length ≤ MAX_FILENAME_LENGTH ∧ 0 < r.size
        ∧ r.size ≤ MAX_DATA_BLOCKS * DATA_BLOCK_SIZE) →
      (reqs.map (fun r => ceilBlocks r.size)).sum ≤ freeCount s.allocationTable →
      ∃ s', createAll 0 true reqs s = some (List.replicate reqs.length 0, s')
        ∧ s'.fileCount = s.fileCount + reqs.length
        ∧ listFiles s' = listFiles s
            ++ reqs.map (fun r => (storedName r.name r.size, r.size, r.permissions)) := by
  induction reqs with
  | nil =>
    intro s _ _ _ _
    exact ⟨s, rfl, by simp, by simp⟩
  | cons r rs ih =>
    intro s hs hcount hvalid hdemand
    obtain ⟨hn, h3, h4⟩ := hvalid r (List.mem_cons_self _ _)
    have hvalid' : ∀ x ∈ rs, x.name.length ≤ MAX_FILENAME_LENGTH ∧ 0 < x.size
        ∧ x.size ≤ MAX_DATA_BLOCKS * DATA_BLOCK_SIZE :=
      fun x hx => hvalid x (List.mem_cons_of_mem _ hx)
    rw [List.map_cons, List.sum_cons] at hdemand
    have hrest := sum_ceilBlocks_nonneg rs (fun x hx => (hvalid' x hx).2.1)
    have hle := tdiv_le_ceilBlocks r.size h3
    have hlen : ((r :: rs).length : Int) = rs.length + 1 := by simp
    have h1 : s.fileCount < MAX_FILES := by omega
    have hfree : Int.tdiv r.size DATA_BLOCK_SIZE ≤ freeCount s.allocationTable := by omega
    have hc := createFile_sound r.name r.size r.permissions s hs h1 hn h3 h4 hfree
    have hfc := afterCreate_freeCount r.name r.size r.permissions s h3 h4 hfree
    obtain ⟨s', hs1, hs2, hs3⟩ := ih (afterCreate s r.name r.size r.permissions)
      (afterCreate_sound r.name r.size r.permissions s hs h3 h4)
      (by show s.fileCount + 1 + rs.length ≤ MAX_FILES; omega)
      hvalid' (by omega)
    refine ⟨s', ?_, ?_, ?_⟩
    · unfold createAll
      rw [hc]
      simp only
      rw [hs1]
      rfl
    · rw [hs2]
      show s.fileCount + 1 + rs.length = _
      omega
    · rw [hs3, afterCreate_listFiles r.name r.size r.permissions s hs h1]
      simp

/-! ## Claims about validation and the directory -/

/-- C6: `createFile` checks in a fixed order and the first violated check decides: `-1`
when `fileCount >= MAX_FILES`; otherwise `-2` when the name is longer than
`MAX_FILENAME_LENGTH`; otherwise `-3` when `size <= 0` or
`size > MAX_DATA_BLOCKS * DATA_BLOCK_SIZE` (which is 1,024,000); and none of the three when
all checks pass. -/
theorem createFile_validation_order (uninit : Int) (fopenOk : Bool) (name : String)
    (size permissions : Int) (s : FileSystem) :
    (s.fileCount ≥ MAX_FILES →
      createFile uninit fopenOk name size permissions s = some (-1, s))
    ∧ (s.fileCount < MAX_FILES → name.length > MAX_FILENAME_LENGTH →
      createFile uninit fopenOk name size permissions s = some (-2, s))
    ∧ (s.fileCount < MAX_FILES → name.length ≤ MAX_FILENAME_LENGTH →
      (size ≤ 0 ∨ size > 1024000) →
      createFile uninit fopenOk name size permissions s = some (-3, s))
    ∧ (s.fileCount < MAX_FILES → name.length ≤ MAX_FILENAME_LENGTH →
      0 < size → size ≤ 1024000 →
      ∀ r s', createFile uninit fopenOk name size permissions s = some (r, s') →
        r ≠ -1 ∧ r ≠ -2 ∧ r ≠ -3)
    ∧ (MAX_DATA_BLOCKS : Int) * DATA_BLOCK_SIZE = 1024000 := by
  have hcap := capacity_eq
  refine ⟨?_, ?_, ?_, ?_, hcap⟩
  · intro c1
    unfold createFile
    rw [if_pos c1]
  · intro c1 c2
    unfold createFile
    rw [if_neg (by omega), if_pos c2]
  · intro c1 c2 c3
    unfold createFile
    rw [if_neg (by omega), if_neg (by omega), if_pos (by rw [hcap]; exact c3)]
  · intro c1 c2 c3 c4 r s' h
    rcases createFile_cases uninit fopenOk name size permissions s r s' h with
      c | c | c | c | c | c
    · have := c.2.2; omega
    · have := c.2.2.2; omega
    · have := c.2.2.2.2; omega
    · have := c.1; omega
    · have := c.1; omega
    · have := c.1; omega

/-- C6, instances: size 0 is rejected with `-3`, and size 1,024,000 passes the three
checks. -/
theorem createFile_validation_order_witness :
    createFile 0 true "x" 0 0 (initializeFileSystem bootState)
        = some (-3, initializeFileSystem bootState)
    ∧ (∀ r s', createFile 0 true "x" 1024000 0 (initializeFileSystem bootState) = some (r, s') →
        r ≠ -1 ∧ r ≠ -2 ∧ r ≠ -3)
    ∧ createFile 0 true "x" 1024000 0 (initializeFileSystem bootState)
        = some (0, afterCreate (initializeFileSystem bootState) "x" 1024000 0) :=
  ⟨(createFile_validation_order 0 true "x" 0 0 (initializeFileSystem bootState)).2.2.1
      (by decide) (by decide) (by decide),
    (createFile_validation_order 0 true "x" 1024000 0 (initializeFileSystem bootState)).2.2.2.1
      (by decide) (by decide) (by decide) (by decide),
    createFile_sound "x" 1024000 0 _ (init_sound bootState bootState_wellFormed) (by decide)
      (by decide) (by decide) (by decide)
      (by
        have h1 : Int.tdiv 1024000 (DATA_BLOCK_SIZE : Int) = 1000 := by decide
        have h2 := init_freeCount bootState
        have h3 : MAX_DATA_BLOCKS = 1000 := rfl
        rw [h1, h2, h3]
        decide)⟩

/-- The exits of `createFile` of pros2.c before the slot search leave the state as it was. -/
theorem pros2_createFile_early_return (fopenOk : Bool) (name : String)
    (size permissions : Int) (s : FileSystem) (m : Pros2.Message) (s' : FileSystem)
    (h : Pros2.createFile fopenOk name size permissions s = some (m, s'))
    (hm : m = Pros2.Message.maxFilesReached ∨ m = Pros2.Message.nameTooLong
      ∨ m = Pros2.Message.invalidSize) : s' = s := by
  unfold Pros2.createFile at h
  by_cases c1 : s.fileCount ≥ MAX_FILES
  · rw [if_pos c1] at h
    simp only [Option.some.injEq, Prod.mk.injEq] at h
    exact h.2.symm
  rw [if_neg c1] at h
  by_cases c2 : name.length > MAX_FILENAME_LENGTH
  · rw [if_pos c2] at h
    simp only [Option.some.injEq, Prod.mk.injEq] at h
    exact h.2.symm
  rw [if_neg c2] at h
  by_cases c3 : size ≤ 0 ∨ size > MAX_DATA_BLOCKS * DATA_BLOCK_SIZE
  · rw [if_pos c3] at h
    simp only [Option.some.injEq, Prod.mk.injEq] at h
    exact h.2.symm
  rw [if_neg c3] at h
  exfalso
  cases hf : Pros2.findSlot s.files MAX_FILES 0 with
  | none => rw [hf] at h; simp at h
  | some fileIndex =>
    rw [hf] at h
    simp only at h
    by_cases c4 : fileIndex = -1
    · rw [if_pos c4] at h
      simp only [Option.some.injEq, Prod.mk.injEq] at h
      rcases hm with hm | hm | hm <;> rw [hm] at h <;> exact absurd h.1 (by decide)
    rw [if_neg c4] at h
    cases hslot : s.files[fileIndex.toNat]? with
    | none => rw [hslot] at h; simp at h
    | some slot =>
      rw [hslot] at h
      simp only at h
      cases ha : allocLoop slot.firstDataBlock size MAX_DATA_BLOCKS s.allocationTable 0 0 with
      | none => rw [ha] at h; simp at h
      | some p =>
        obtain ⟨table, allocatedBlocks⟩ := p
        rw [ha] at h
        simp only at h
        by_cases c5 : allocatedBlocks < Int.tdiv size DATA_BLOCK_SIZE
        · rw [if_pos c5] at h
          simp only [Option.some.injEq, Prod.mk.injEq] at h
          rcases hm with hm | hm | hm <;> rw [hm] at h <;> exact absurd h.1 (by decide)
        rw [if_neg c5] at h
        by_cases c6 : fopenOk = false
        · rw [if_pos c6] at h
          simp only [Option.some.injEq, Prod.mk.injEq] at h
          rcases hm with hm | hm | hm <;> rw [hm] at h <;> exact absurd h.1 (by decide)
        rw [if_neg c6] at h
        cases hw : walkLoop s.dataBlocks table size.toNat size slot.firstDataBlock with
        | none => rw [hw] at h; simp at h
        | some l =>
          rw [hw] at h
          simp only [Option.some.injEq, Prod.mk.injEq] at h
          rcases hm with hm | hm | hm <;> rw [hm] at h <;> exact absurd h.1 (by decide)

/-- C7: validation failures are atomic. Whenever `createFile` returns `-1`, `-2` or `-3`
the whole state (directory, table, blocks) is the state before the call; the same holds of
the three corresponding early returns of pros2.c. -/
theorem createFile_validation_atomic (uninit : Int) (fopenOk : Bool) (name : String)
    (size permissions : Int) (s : FileSystem) :
    (∀ r s', createFile uninit fopenOk name size permissions s = some (r, s') →
      (r = -1 ∨ r = -2 ∨ r = -3) →
      s' = s ∧ s'.fileCount = s.fileCount ∧ s'.files = s.files
        ∧ s'.allocationTable = s.allocationTable)
    ∧ (∀ m s', Pros2.createFile fopenOk name size permissions s = some (m, s') →
      (m = Pros2.Message.maxFilesReached ∨ m = Pros2.Message.nameTooLong
        ∨ m = Pros2.Message.invalidSize) →
      s' = s ∧ s'.fileCount = s.fileCount ∧ s'.files = s.files
        ∧ s'.allocationTable = s.allocationTable) := by
  constructor
  · intro r s' h hr
    have hs : s' = s := by
      rcases createFile_cases uninit fopenOk name size permissions s r s' h with
        c | c | c | c | c | c
      · exact c.2.1
      · exact c.2.1
      · exact c.2.1
      · have := c.1; omega
      · have := c.1; omega
      · have := c.1; omega
    rw [hs]
    exact ⟨rfl, rfl, rfl, rfl⟩
  · intro m s' h hm
    have hs := pros2_createFile_early_return fopenOk name size permissions s m s' h hm
    rw [hs]
    exact ⟨rfl, rfl, rfl, rfl⟩

/-- C7, instance: `createFile("x", 0, 0)` after `initializeFileSystem` returns `-3` in
errorhandlepros4.c and prints the invalid-size line in pros2.c, the state unchanged. -/
theorem createFile_validation_atomic_witness :
    createFile 0 true "x" 0 0 (initializeFileSystem bootState)
        = some (-3, initializeFileSystem bootState)
    ∧ Pros2.createFile true "x" 0 0 (initializeFileSystem bootState)
        = some (Pros2.Message.invalidSize, initializeFileSystem bootState)
    ∧ (initializeFileSystem bootState).allocationTable
        = (initializeFileSystem bootState).allocationTable :=
  have h1 : createFile 0 true "x" 0 0 (initializeFileSystem bootState)
      = some (-3, initializeFileSystem bootState) := by
    unfold createFile
    rw [if_neg (by decide), if_neg (by decide), if_pos (by decide)]
  have h2 : Pros2.createFile true "x" 0 0 (initializeFileSystem bootState)
      = some (Pros2.Message.invalidSize, initializeFileSystem bootState) := by
    unfold Pros2.createFile
    rw [if_neg (by decide), if_neg (by decide), if_pos (by decide)]
  ⟨h1, h2,
    ((createFile_validation_atomic 0 true "x" 0 0 (initializeFileSystem bootState)).1
      (-3) (initializeFileSystem bootState) h1 (Or.inr (Or.inr rfl))).2.2.2⟩

/-- Only the exit of `createFile` with code `0` inserts a descriptor. On `0`, `fileCount`
grew by one, the slot at the old `fileCount` holds the stored name (the given name when it
is shorter than `MAX_FILENAME_LENGTH`), the size and the permissions, every earlier slot is
unchanged, and `listFiles` prints the old lines followed by the new one; on any other
code, `fileCount`, the slots and the listing are unchanged. -/
theorem createFile_zero_iff_inserted (uninit : Int) (fopenOk : Bool) (name : String)
    (size permissions : Int) (s : FileSystem) (r : Int) (s' : FileSystem)
    (h : createFile uninit fopenOk name size permissions s = some (r, s')) :
    (r = 0 →
      s'.fileCount = s.fileCount + 1
      ∧ (s'.files[s.fileCount.toNat]?).map (fun f => (f.name, f.size, f.permissions))
          = some (storedName name size, size, permissions)
      ∧ (∀ i : Nat, (i : Int) < s.fileCount → s'.files[i]? = s.files[i]?)
      ∧ listFiles s' = listFiles s ++ [(storedName name size, size, permissions)]
      ∧ (name.length < MAX_FILENAME_LENGTH →
          (s'.files[s.fileCount.toNat]?).map (fun f => (f.name, f.size, f.permissions))
            = some (name, size, permissions)
          ∧ listFiles s' = listFiles s ++ [(name, size, permissions)]))
    ∧ (r ≠ 0 →
      s'.fileCount = s.fileCount ∧ s'.files = s.files ∧ listFiles s' = listFiles s) := by
  rcases createFile_cases uninit fopenOk name size permissions s r s' h with
    c | c | c | c | c | c
  · refine ⟨fun hr => by have := c.1; omega, fun _ => ?_⟩
    rw [c.2.1]; exact ⟨rfl, rfl, rfl⟩
  · refine ⟨fun hr => by have := c.1; omega, fun _ => ?_⟩
    rw [c.2.1]; exact ⟨rfl, rfl, rfl⟩
  · refine ⟨fun hr => by have := c.1; omega, fun _ => ?_⟩
    rw [c.2.1]; exact ⟨rfl, rfl, rfl⟩
  · refine ⟨fun hr => by have := c.1; omega, fun _ => ?_⟩
    obtain ⟨_, table, hs'⟩ := c
    rw [hs']; exact ⟨rfl, rfl, rfl⟩
  · refine ⟨fun hr => by have := c.1; omega, fun _ => ?_⟩
    obtain ⟨_, _, table, hs'⟩ := c
    rw [hs']; exact ⟨rfl, rfl, rfl⟩
  · obtain ⟨hr0, _, h0, hlt, table, hs'⟩ := c
    refine ⟨fun _ => ?_, fun hr => absurd hr0 hr⟩
    have hslot : (s'.files[s.fileCount.toNat]?).map (fun f => (f.name, f.size, f.permissions))
        = some (storedName name size, size, permissions) := by
      rw [hs']
      show ((s.files.set s.fileCount.toNat _)[s.fileCount.toNat]?).map _ = _
      rw [List.getElem?_set_self hlt]
      rfl
    have hlist : listFiles s' = listFiles s ++ [(storedName name size, size, permissions)] := by
      rw [hs']
      exact listFiles_insert s _ table h0 hlt
    refine ⟨by rw [hs'], hslot, ?_, hlist, ?_⟩
    · intro i hi
      rw [hs']
      show (s.files.set s.fileCount.toNat _)[i]? = _
      rw [List.getElem?_set]
      rw [if_neg (by omega)]
    · intro hshort
      rw [hslot, hlist, storedName_of_short name size hshort]
      exact ⟨rfl, rfl⟩

/-- C8 (the code breaks the claim): after `initializeFileSystem`, `createFile` with a name
of exactly `MAX_FILENAME_LENGTH` characters (100 times `a`), size 1025 and permissions 0
returns `0` and leaves `fileCount` at 1, but the slot at the old `fileCount` does not hold
the given name: the string read there is the given name followed by the bytes `01 04` of
the size, `listFiles` prints that string, and `readFile` with the given name returns `-1`. -/
theorem createFile_full_length_name_not_held :
    name100.length ≤ MAX_FILENAME_LENGTH
    ∧ (createFile 0 true name100 1025 0 (initializeFileSystem bootState)).map
        (fun r => (r.1, r.2.fileCount)) = some (0, 1)
    ∧ (createFile 0 true name100 1025 0 (initializeFileSystem bootState)).map
        (fun r => (r.2.files[0]?).map (fun f => (f.name, f.size, f.permissions)))
        = some (some (name100 ++ String.mk [Char.ofNat 1, Char.ofNat 4], 1025, 0))
    ∧ (createFile 0 true name100 1025 0 (initializeFileSystem bootState)).map
        (fun r => listFiles r.2)
        = some [(name100 ++ String.mk [Char.ofNat 1, Char.ofNat 4], 1025, 0)]
    ∧ name100 ++ String.mk [Char.ofNat 1, Char.ofNat 4] ≠ name100
    ∧ ((createFile 0 true name100 1025 0 (initializeFileSystem bootState)).bind
        (fun r => readFile true name100 r.2)).map (fun r => r.1) = some (-1) := by
  refine ⟨by decide, by decide, by decide, by decide, by decide, by decide⟩

/-- The stored names of two different names that pass the length check differ. -/
theorem storedName_injective (n1 n2 : String) (s1 s2 : Int)
    (h1 : n1.length ≤ MAX_FILENAME_LENGTH) (h2 : n2.length ≤ MAX_FILENAME_LENGTH)
    (h : storedName n1 s1 = storedName n2 s2) : n1 = n2 := by
  unfold storedName at h
  by_cases c1 : n1.length < MAX_FILENAME_LENGTH
  · by_cases c2 : n2.length < MAX_FILENAME_LENGTH
    · rw [if_pos c1, if_pos c2] at h
      exact h
    · rw [if_pos c1, if_neg c2] at h
      have hl := congrArg String.length h
      rw [String.length_append] at hl
      omega
  · by_cases c2 : n2.length < MAX_FILENAME_LENGTH
    · rw [if_neg c1, if_pos c2] at h
      have hl := congrArg String.length h
      rw [String.length_append] at hl
      omega
    · rw [if_neg c1, if_neg c2] at h
      have hd := congrArg String.data h
      rw [String.data_append, String.data_append] at hd
      have hlen : n1.data.length = n2.data.length := by
        show n1.length = n2.length
        omega
      exact String.ext (List.append_inj_left hd hlen)

/-- Requests that pass the checks and fit the table all return `0`, and the directory
ends with one entry for each request, in order, under pairwise distinct stored names. -/
theorem createAll_all_return_zero (s0 : FileSystem) (reqs : List Request)
    (hwf : WellFormed s0) (hN : reqs.length ≤ MAX_FILES)
    (hnames : (reqs.map (fun r => r.name)).Nodup)
    (hvalid : ∀ r ∈ reqs, r.name.length ≤ MAX_FILENAME_LENGTH ∧ 0 < r.size
      ∧ r.size ≤ 1024000)
    (hdemand : (reqs.map (fun r => ceilBlocks r.size)).sum ≤ MAX_DATA_BLOCKS) :
    ∃ s, createAll 0 true reqs (initializeFileSystem s0)
          = some (List.replicate reqs.length 0, s)
      ∧ s.fileCount = reqs.length
      ∧ listFiles s = reqs.map (fun r => (storedName r.name r.size, r.size, r.permissions))
      ∧ (listFiles s).length = reqs.length
      ∧ ((listFiles s).map (fun e => e.1)).Nodup := by
  have hcap := capacity_eq
  obtain ⟨s, h1, h2, h3⟩ := createAll_sound reqs (initializeFileSystem s0)
    (init_sound s0 hwf)
    (by show (0 : Int) + reqs.length ≤ MAX_FILES; omega)
    (fun r hr => ⟨(hvalid r hr).1, (hvalid r hr).2.1, by rw [hcap]; exact (hvalid r hr).2.2⟩)
    (by rw [init_freeCount]; exact hdemand)
  have hl0 : listFiles (initializeFileSystem s0) = [] := by
    unfold listFiles initializeFileSystem
    simp
  rw [hl0, List.nil_append] at h3
  refine ⟨s, h1, ?_, h3, ?_, ?_⟩
  · rw [h2]
    show (0 : Int) + reqs.length = reqs.length
    omega
  · rw [h3, List.length_map]
  · rw [h3, List.map_map]
    refine List.Nodup.map_on ?_ (List.Nodup.of_map _ hnames)
    intro x hx y hy hxy
    exact List.inj_on_of_nodup_map hnames hx hy
      (storedName_injective x.name y.name x.size y.size (hvalid x hx).1 (hvalid y hy).1 hxy)

/-- With names shorter than `MAX_FILENAME_LENGTH` the directory ends with exactly the
requested entries, in order, under distinct names. -/
theorem createAll_all_succeed (s0 : FileSystem) (reqs : List Request)
    (hwf : WellFormed s0) (hN : reqs.length ≤ MAX_FILES)
    (hnames : (reqs.map (fun r => r.name)).Nodup)
    (hvalid : ∀ r ∈ reqs, r.name.length < MAX_FILENAME_LENGTH ∧ 0 < r.size
      ∧ r.size ≤ 1024000)
    (hdemand : (reqs.map (fun r => ceilBlocks r.size)).sum ≤ MAX_DATA_BLOCKS) :
    ∃ s, createAll 0 true reqs (initializeFileSystem s0)
          = some (List.replicate reqs.length 0, s)
      ∧ s.fileCount = reqs.length
      ∧ listFiles s = reqs.map (fun r => (r.name, r.size, r.permissions))
      ∧ (listFiles s).length = reqs.length
      ∧ ((listFiles s).map (fun e => e.1)).Nodup := by
  obtain ⟨s, h1, h2, h3, h4, h5⟩ := createAll_all_return_zero s0 reqs hwf hN hnames
    (fun r hr => ⟨Nat.le_of_lt (hvalid r hr).1, (hvalid r hr).2⟩) hdemand
  refine ⟨s, h1, h2, ?_, h4, h5⟩
  rw [h3]
  refine List.map_congr_left ?_
  intro r hr
  rw [storedName_of_short r.name r.size (hvalid r hr).1]

/-- C9 (the code breaks the claim): the single request with a name of exactly
`MAX_FILENAME_LENGTH` characters (100 times `a`), size 1025 and permissions 0 meets every
condition of the claim, and `createFile` returns `0` for it after `initializeFileSystem`,
but the directory does not end with the requested entry: the name listed is the requested
one followed by the bytes `01 04` of the size. -/
theorem createAll_full_length_name_mislisted :
    [(⟨name100, 1025, 0⟩ : Request)].length ≤ MAX_FILES
    ∧ ([(⟨name100, 1025, 0⟩ : Request)].map (fun r => r.name)).Nodup
    ∧ (∀ r ∈ [(⟨name100, 1025, 0⟩ : Request)],
        r.name.length ≤ MAX_FILENAME_LENGTH ∧ 0 < r.size ∧ r.size ≤ 1024000)
    ∧ ([(⟨name100, 1025, 0⟩ : Request)].map (fun r => ceilBlocks r.size)).sum ≤ MAX_DATA_BLOCKS
    ∧ (createAll 0 true [⟨name100, 1025, 0⟩] (initializeFileSystem bootState)).map
        (fun r => (r.1, listFiles r.2))
        = some ([0], [(name100 ++ String.mk [Char.ofNat 1, Char.ofNat 4], 1025, 0)])
    ∧ [(name100 ++ String.mk [Char.ofNat 1, Char.ofNat 4], (1025 : Int), (0 : Int))]
        ≠ [(⟨name100, 1025, 0⟩ : Request)].map (fun r => (r.name, r.size, r.permissions)) := by
  refine ⟨by decide, by decide, by decide, by decide, by decide, by decide⟩

/-- C10 (the code breaks the claim): after `initializeFileSystem`,
`createFile("a", 1024, 0)` and `writeFile("a", "hi")`, the listing shows size 1024; the
first `readFile("a")` returns `0`, prints `hi` and leaves the descriptor's size at `0`; the
second `readFile("a")` returns `0` and prints nothing. -/
theorem readFile_consumes_size :
    ((createFile 0 true "a" 1024 0 (initializeFileSystem bootState)).bind (fun r1 =>
      (writeFile true "a" ['h', 'i'] r1.2).map (fun r2 => (r1.1, r2.1, listFiles r2.2))))
      = some (0, 0, [("a", 1024, 0)])
    ∧ ((createFile 0 true "a" 1024 0 (initializeFileSystem bootState)).bind (fun r1 =>
      (writeFile true "a" ['h', 'i'] r1.2).bind (fun r2 =>
        (readFile true "a" r2.2).map (fun r3 => (r3.1, r3.2.2, listFiles r3.2.1)))))
      = some (0, ['h', 'i'], [("a", 0, 0)])
    ∧ ((createFile 0 true "a" 1024 0 (initializeFileSystem bootState)).bind (fun r1 =>
      (writeFile true "a" ['h', 'i'] r1.2).bind (fun r2 =>
        (readFile true "a" r2.2).bind (fun r3 =>
          (readFile true "a" r3.2.1).map (fun r4 => (r4.1, r4.2.2, listFiles r4.2.1))))))
      = some (0, [], [("a", 0, 0)]) := by
  refine ⟨by decide, by decide, by decide⟩

/-! ## The lookup loop -/

/-- The lookup returns a slot index only if that slot is below `fileCount` and holds the
name. -/
theorem findFile_found (files : List FileMetadata) (fileCount : Int) (name : String) :
    ∀ (fuel i : Nat) (k : Int), findFile files fileCount name fuel i = some k → k ≠ -1 →
      (i : Int) ≤ k ∧ k < fileCount ∧ ∃ f, files[k.toNat]? = some f ∧ f.name = name := by
  intro fuel
  induction fuel with
  | zero =>
    intro i k h hk
    simp only [findFile, Option.some.injEq] at h
    exact absurd h.symm hk
  | succ fuel ih =>
    intro i k h hk
    rw [findFile] at h
    by_cases hg : (i : Int) < fileCount
    · rw [if_pos hg] at h
      cases hf : files[i]? with
      | none => rw [hf] at h; simp at h
      | some f =>
        rw [hf] at h
        simp only at h
        by_cases hn : f.name = name
        · rw [if_pos hn] at h
          simp only [Option.some.injEq] at h
          subst h
          exact ⟨le_refl _, hg, f, by simpa using hf, hn⟩
        · rw [if_neg hn] at h
          obtain ⟨h1, h2, h3⟩ := ih (i + 1) k h hk
          exact ⟨by push_cast at h1; omega, h2, h3⟩
    · rw [if_neg hg] at h
      simp only [Option.some.injEq] at h
      exact absurd h.symm hk

/-- The lookup returns `-1` only if no slot from `i` up to `fileCount` holds the name. -/
theorem findFile_not_found (files : List FileMetadata) (fileCount : Int) (name : String) :
    ∀ (fuel i : Nat), fileCount ≤ i + fuel →
      findFile files fileCount name fuel i = some (-1) →
      ∀ (j : Nat) (f : FileMetadata), i ≤ j → (j : Int) < fileCount → files[j]? = some f →
        f.name ≠ name := by
  intro fuel
  induction fuel with
  | zero =>
    intro i hb _ j f hij hj _
    simp at hb
    omega
  | succ fuel ih =>
    intro i hb h j f hij hj hjf
    rw [findFile] at h
    by_cases hg : (i : Int) < fileCount
    · rw [if_pos hg] at h
      cases hf : files[i]? with
      | none => rw [hf] at h; simp at h
      | some f0 =>
        rw [hf] at h
        simp only at h
        by_cases hn : f0.name = name
        · rw [if_pos hn] at h
          simp only [Option.some.injEq] at h
          omega
        · rw [if_neg hn] at h
          rcases Nat.eq_or_lt_of_le hij with heq | hlt
          · subst heq
            rw [hf] at hjf
            simp only [Option.some.injEq] at hjf
            subst hjf
            exact hn
          · exact ih (i + 1) (by push_cast at hb ⊢; omega) h j f hlt hj hjf
    · omega

/-- The lookup returns `-1` when every slot from `i` up to `fileCount` exists and holds
another name. -/
theorem findFile_of_noMatch (files : List FileMetadata) (fileCount : Int) (name : String) :
    ∀ (fuel i : Nat), fileCount ≤ files.length →
      (∀ (j : Nat) (f : FileMetadata), i ≤ j → (j : Int) < fileCount → files[j]? = some f →
        f.name ≠ name) →
      findFile files fileCount name fuel i = some (-1) := by
  intro fuel
  induction fuel with
  | zero =>
    intro i _ _
    rfl
  | succ fuel ih =>
    intro i hlen hno
    rw [findFile]
    by_cases hg : (i : Int) < fileCount
    · rw [if_pos hg]
      have hlt : i < files.length := by omega
      rw [List.getElem?_eq_getElem hlt]
      simp only
      have hn := hno i files[i] (le_refl _) hg (List.getElem?_eq_getElem hlt)
      rw [if_neg hn]
      exact ih (i + 1) hlen (fun j f hij hj hjf => hno j f (by omega) hj hjf)
    · rw [if_neg hg]

/-! ## Exits of `readFile` and `writeFile` -/

/-- Every result of `writeFile` is one of three exits, each with its state change. -/
theorem writeFile_cases (fopenOk : Bool) (name : String) (content : List Char)
    (s : FileSystem) (r : Int) (s' : FileSystem)
    (h : writeFile fopenOk name content s = some (r, s')) :
    (r = -1 ∧ s' = s ∧ findFile s.files s.fileCount name s.fileCount.toNat 0 = some (-1))
    ∨ (r = -2 ∧ s' = s ∧ fopenOk = false
        ∧ ∃ k, findFile s.files s.fileCount name s.fileCount.toNat 0 = some k ∧ k ≠ -1)
    ∨ (r = 0 ∧ fopenOk = true
        ∧ ∃ k file dataBlocks,
            findFile s.files s.fileCount name s.fileCount.toNat 0 = some k ∧ k ≠ -1
            ∧ s.files[k.toNat]? = some file
            ∧ writeLoop s.allocationTable file.size content.length s.dataBlocks content
                content.length 0 file.firstDataBlock = some dataBlocks
            ∧ s' = { s with dataBlocks := dataBlocks }) := by
  unfold writeFile at h
  cases hf : findFile s.files s.fileCount name s.fileCount.toNat 0 with
  | none => rw [hf] at h; simp at h
  | some k =>
    rw [hf] at h
    simp only at h
    by_cases c1 : k = -1
    · rw [if_pos c1] at h
      simp only [Option.some.injEq, Prod.mk.injEq] at h
      exact Or.inl ⟨h.1.symm, h.2.symm, by rw [c1]⟩
    rw [if_neg c1] at h
    cases hs : s.files[k.toNat]? with
    | none => rw [hs] at h; simp at h
    | some file =>
      rw [hs] at h
      simp only at h
      by_cases c2 : fopenOk = false
      · rw [if_pos c2] at h
        simp only [Option.some.injEq, Prod.mk.injEq] at h
        exact Or.inr (Or.inl ⟨h.1.symm, h.2.symm, c2, k, rfl, c1⟩)
      rw [if_neg c2] at h
      cases hw : writeLoop s.allocationTable file.size content.length s.dataBlocks content
          content.length 0 file.firstDataBlock with
      | none => rw [hw] at h; simp at h
      | some dataBlocks =>
        rw [hw] at h
        simp only [Option.some.injEq, Prod.mk.injEq] at h
        exact Or.inr (Or.inr ⟨h.1.symm, by simpa using c2, k, file, dataBlocks, rfl, c1, hs,
          hw, h.2.symm⟩)

/-- Every result of `readFile` is one of three exits, each with its state change. -/
theorem readFile_cases (fopenOk : Bool) (name : String) (s : FileSystem) (r : Int)
    (s' : FileSystem) (out : List Char)
    (h : readFile fopenOk name s = some (r, s', out)) :
    (r = -1 ∧ s' = s ∧ out = []
        ∧ findFile s.files s.fileCount name s.fileCount.toNat 0 = some (-1))
    ∨ (r = -2 ∧ s' = s ∧ out = [] ∧ fopenOk = false
        ∧ ∃ k, findFile s.files s.fileCount name s.fileCount.toNat 0 = some k ∧ k ≠ -1)
    ∨ (r = 0 ∧ fopenOk = true
        ∧ ∃ k file size,
            findFile s.files s.fileCount name s.fileCount.toNat 0 = some k ∧ k ≠ -1
            ∧ s.files[k.toNat]? = some file
            ∧ readLoop s.dataBlocks s.allocationTable file.size.toNat file.size
                file.firstDataBlock = some (size, out)
            ∧ s' = { s with files := s.files.set k.toNat { file with size := size } }) := by
  unfold readFile at h
  cases hf : findFile s.files s.fileCount name s.fileCount.toNat 0 with
  | none => rw [hf] at h; simp at h
  | some k =>
    rw [hf] at h
    simp only at h
    by_cases c1 : k = -1
    · rw [if_pos c1] at h
      simp only [Option.some.injEq, Prod.mk.injEq] at h
      exact Or.inl ⟨h.1.symm, h.2.1.symm, h.2.2.symm, by rw [c1]⟩
    rw [if_neg c1] at h
    cases hs : s.files[k.toNat]? with
    | none => rw [hs] at h; simp at h
    | some file =>
      rw [hs] at h
      simp only at h
      by_cases c2 : fopenOk = false
      · rw [if_pos c2] at h
        simp only [Option.some.injEq, Prod.mk.injEq] at h
        exact Or.inr (Or.inl ⟨h.1.symm, h.2.1.symm, h.2.2.symm, c2, k, rfl, c1⟩)
      rw [if_neg c2] at h
      cases hw : readLoop s.dataBlocks s.allocationTable file.size.toNat file.size
          file.firstDataBlock with
      | none => rw [hw] at h; simp at h
      | some p =>
        obtain ⟨size, o⟩ := p
        rw [hw] at h
        simp only [Option.some.injEq, Prod.mk.injEq] at h
        obtain ⟨h1, h2, h3⟩ := h
        subst h3
        exact Or.inr (Or.inr ⟨h1.symm, by simpa using c2, k, file, size, rfl, c1, hs,
          hw, h2.symm⟩)

/-- The block loop of `writeFile` stays inside the arrays when every table entry is the
free marker or a block index, and keeps the extent of the pool. -/
theorem writeLoop_isSome (table : List Int) (size : Int)
    (ht : table.length = MAX_DATA_BLOCKS) (hr : InRange table) :
    ∀ (fuel : Nat) (dataBlocks : List DataBlock) (content : List Char)
      (contentLength blockCount b : Int),
      dataBlocks.length = MAX_DATA_BLOCKS → contentLength ≤ fuel → -1 ≤ b →
      b < (MAX_DATA_BLOCKS : Int) →
      ∃ db, writeLoop table size fuel dataBlocks content contentLength blockCount b = some db
        ∧ db.length = MAX_DATA_BLOCKS := by
  intro fuel
  have hbs := blockSize_pos
  induction fuel with
  | zero =>
    intro dataBlocks content contentLength blockCount b hd hs _ _
    refine ⟨dataBlocks, ?_, hd⟩
    unfold writeLoop
    rw [if_neg]
    intro hg
    have := hg.2.2
    simp at hs
    omega
  | succ fuel ih =>
    intro dataBlocks content contentLength blockCount b hd hs hb1 hb2
    unfold writeLoop
    by_cases hg : blockCount < Int.tdiv size DATA_BLOCK_SIZE ∧ b ≠ -1 ∧ contentLength > 0
    · rw [if_pos hg]
      have hb0 : 0 ≤ b := by have := hg.2.1; omega
      rw [if_pos hb0]
      have hlt : b.toNat < MAX_DATA_BLOCKS := by omega
      have hlt1 : b.toNat < dataBlocks.length := by omega
      have hlt2 : b.toNat < table.length := by omega
      rw [List.getElem?_eq_getElem hlt1, List.getElem?_eq_getElem hlt2]
      simp only
      have hmem := hr _ (List.getElem_mem hlt2)
      exact ih _ _ _ _ _ (by rw [List.length_set]; exact hd) (by push_cast at hs; omega)
        hmem.1 hmem.2
    · rw [if_neg hg]
      exact ⟨dataBlocks, rfl, hd⟩

/-- The chain walk of `readFile` stays inside the arrays when every table entry is the free
marker or a block index. -/
theorem readLoop_isSome (dataBlocks : List DataBlock) (table : List Int)
    (hd : dataBlocks.length = MAX_DATA_BLOCKS) (ht : table.length = MAX_DATA_BLOCKS)
    (hr : InRange table) :
    ∀ (fuel : Nat) (size b : Int), size ≤ fuel → -1 ≤ b → b < (MAX_DATA_BLOCKS : Int) →
      ∃ p, readLoop dataBlocks table fuel size b = some p := by
  intro fuel
  have hbs := blockSize_pos
  induction fuel with
  | zero =>
    intro size b hs _ _
    refine ⟨(size, []), ?_⟩
    unfold readLoop
    rw [if_neg]
    intro h
    have := h.1
    simp at hs
    omega
  | succ fuel ih =>
    intro size b hs hb1 hb2
    unfold readLoop
    by_cases hg : size > 0 ∧ b ≠ -1
    · rw [if_pos hg]
      have hb0 : 0 ≤ b := by have := hg.2; omega
      rw [if_pos hb0]
      have hlt : b.toNat < MAX_DATA_BLOCKS := by omega
      have hlt1 : b.toNat < dataBlocks.length := by omega
      have hlt2 : b.toNat < table.length := by omega
      rw [List.getElem?_eq_getElem hlt1, List.getElem?_eq_getElem hlt2]
      simp only
      have hmem := hr _ (List.getElem_mem hlt2)
      obtain ⟨p, hp⟩ := ih (size - DATA_BLOCK_SIZE) table[b.toNat]
        (by push_cast at hs; omega) hmem.1 hmem.2
      exact ⟨_, by rw [hp]; rfl⟩
    · rw [if_neg hg]
      exact ⟨_, rfl⟩

/-- The state after the first `createFile("a.txt", 2048, 644)` of a fresh store. -/
theorem createFile_a_txt :
    createFile 0 true "a.txt" 2048 644 (initializeFileSystem bootState)
      = some (0, afterCreate (initializeFileSystem bootState) "a.txt" 2048 644) :=
  createFile_sound "a.txt" 2048 644 _ (init_sound bootState bootState_wellFormed)
    (by decide) (by decide) (by decide) (by decide)
    (by
      have h1 : Int.tdiv 2048 (DATA_BLOCK_SIZE : Int) = 2 := by decide
      have h2 := init_freeCount bootState
      have h3 : MAX_DATA_BLOCKS = 1000 := rfl
      rw [h1, h2, h3]
      decide)

theorem afterCreate_a_txt_sound :
    Sound (afterCreate (initializeFileSystem bootState) "a.txt" 2048 644) :=
  afterCreate_sound "a.txt" 2048 644 _ (init_sound bootState bootState_wellFormed)
    (by decide) (by decide)

/-- The exit of `writeFile` with code `0`, from the results of its lookup and its loop. -/
theorem writeFile_of_found (name : String) (content : List Char) (s : FileSystem) (k : Int)
    (file : FileMetadata) (db : List DataBlock)
    (hfind : findFile s.files s.fileCount name s.fileCount.toNat 0 = some k) (hk : k ≠ -1)
    (hfile : s.files[k.toNat]? = some file)
    (hw : writeLoop s.allocationTable file.size content.length s.dataBlocks content
      content.length 0 file.firstDataBlock = some db) :
    writeFile true name content s = some (0, { s with dataBlocks := db }) := by
  unfold writeFile
  rw [hfind]
  simp only
  rw [if_neg hk, hfile]
  simp only
  rw [if_neg (by decide), hw]

/-- The exit of `readFile` with code `0`, from the results of its lookup and its loop. -/
theorem readFile_of_found (name : String) (s : FileSystem) (k : Int)
    (file : FileMetadata) (size : Int) (out : List Char)
    (hfind : findFile s.files s.fileCount name s.fileCount.toNat 0 = some k) (hk : k ≠ -1)
    (hfile : s.files[k.toNat]? = some file)
    (hw : readLoop s.dataBlocks s.allocationTable file.size.toNat file.size
      file.firstDataBlock = some (size, out)) :
    readFile true name s
      = some (0, { s with files := s.files.set k.toNat { file with size := size } }, out) := by
  unfold readFile
  rw [hfind]
  simp only
  rw [if_neg hk, hfile]
  simp only
  rw [if_neg (by decide), hw]

theorem afterCreate_a_txt_find :
    findFile (afterCreate (initializeFileSystem bootState) "a.txt" 2048 644).files
      (afterCreate (initializeFileSystem bootState) "a.txt" 2048 644).fileCount "a.txt"
      (afterCreate (initializeFileSystem bootState) "a.txt" 2048 644).fileCount.toNat 0
      = some 0 := by decide

theorem afterCreate_a_txt_file :
    (afterCreate (initializeFileSystem bootState) "a.txt" 2048 644).files[(0 : Int).toNat]?
      = some { name := "a.txt", size := 2048, permissions := 644, firstDataBlock := 0 } := by
  decide

/-- In the state after `createFile("a.txt", 2048, 644)`, `writeFile("a.txt", c)` with the
host-file open succeeding returns `0`, for every content. -/
theorem writeFile_a_txt_isSome (content : List Char) :
    ∃ s', writeFile true "a.txt" content
      (afterCreate (initializeFileSystem bootState) "a.txt" 2048 644) = some (0, s') := by
  obtain ⟨⟨_, hd, ht, _⟩, hr, _⟩ := afterCreate_a_txt_sound
  obtain ⟨db, hdb, _⟩ := writeLoop_isSome _ 2048 ht hr content.length _ content
    content.length 0 0 hd (le_refl _) (by decide) (by decide)
  exact ⟨_, writeFile_of_found "a.txt" content _ 0 _ db afterCreate_a_txt_find (by decide)
    afterCreate_a_txt_file hdb⟩

/-- A name held by one of the first `fileCount` slots is found by the lookup. -/
theorem findFile_of_held (s : FileSystem) (name : String)
    (hex : ∃ (i : Nat) (f : FileMetadata), (i : Int) < s.fileCount ∧ s.files[i]? = some f
      ∧ f.name = name) :
    findFile s.files s.fileCount name s.fileCount.toNat 0 ≠ some (-1) := by
  intro h
  obtain ⟨i, f, hi, hf, hn⟩ := hex
  exact findFile_not_found s.files s.fileCount name s.fileCount.toNat 0 (by omega) h i f
    (Nat.zero_le _) hi hf hn

/-! ## Claims about `readFile` and `writeFile` -/

/-- C13 (counterexample): in the state after `createFile("a.txt", 2048, 644)`, a
`writeFile` of 3000 characters and a `writeFile` of 2 characters both return the bare
code `0`: the result of the longer write reports neither a truncation nor 952 dropped
bytes. -/
theorem writeFile_result_is_bare_code :
    content3000.length = 3000
    ∧ (∃ s', writeFile true "a.txt" content3000
        (afterCreate (initializeFileSystem bootState) "a.txt" 2048 644) = some (0, s'))
    ∧ (∃ s', writeFile true "a.txt" ['h', 'i']
        (afterCreate (initializeFileSystem bootState) "a.txt" 2048 644) = some (0, s')) :=
  ⟨by simp [content3000], writeFile_a_txt_isSome content3000, writeFile_a_txt_isSome ['h', 'i']⟩

/-- C13 (amended): `writeFile` reports no truncation. For every existing file and any two
contents, whatever their lengths, the calls that return (host-file open succeeding) return
the same bare code `0`; the excess content is dropped without a flag or a count. -/
theorem writeFile_code_ignores_content (name : String) (c1 c2 : List Char) (s : FileSystem)
    (r1 r2 : Int) (s1 s2 : FileSystem)
    (hex : ∃ (i : Nat) (f : FileMetadata), (i : Int) < s.fileCount ∧ s.files[i]? = some f
      ∧ f.name = name)
    (h1 : writeFile true name c1 s = some (r1, s1))
    (h2 : writeFile true name c2 s = some (r2, s2)) :
    r1 = 0 ∧ r2 = 0 := by
  have hfound := findFile_of_held s name hex
  constructor
  · rcases writeFile_cases true name c1 s r1 s1 h1 with c | c | c
    · exact absurd c.2.2 hfound
    · exact absurd c.2.2.1 (by decide)
    · exact c.1
  · rcases writeFile_cases true name c2 s r2 s2 h2 with c | c | c
    · exact absurd c.2.2 hfound
    · exact absurd c.2.2.1 (by decide)
    · exact c.1

/-- C13 (amended), instance: the 3000-character and the 2-character write to the
2048-byte file `a.txt`. -/
theorem writeFile_code_ignores_content_witness :
    ∃ r1 r2 s1 s2,
      writeFile true "a.txt" content3000
        (afterCreate (initializeFileSystem bootState) "a.txt" 2048 644) = some (r1, s1)
      ∧ writeFile true "a.txt" ['h', 'i']
        (afterCreate (initializeFileSystem bootState) "a.txt" 2048 644) = some (r2, s2)
      ∧ r1 = 0 ∧ r2 = 0 := by
  obtain ⟨s1, h1⟩ := writeFile_a_txt_isSome content3000
  obtain ⟨s2, h2⟩ := writeFile_a_txt_isSome ['h', 'i']
  have h := writeFile_code_ignores_content "a.txt" content3000 ['h', 'i']
    (afterCreate (initializeFileSystem bootState) "a.txt" 2048 644) 0 0 s1 s2
    ⟨0, _, by decide, afterCreate_a_txt_file, rfl⟩ h1 h2
  exact ⟨0, 0, s1, s2, h1, h2, h.1, h.2⟩

/-- C14: `writeFile` changes block content only. Whatever the state, the name and the
content, after `writeFile` the directory (`fileCount` and every slot, hence every
descriptor's name, size, permissions and firstDataBlock) and the allocation table are those
before the call. -/
theorem writeFile_frame (fopenOk : Bool) (name : String) (content : List Char)
    (s : FileSystem) (r : Int) (s' : FileSystem)
    (h : writeFile fopenOk name content s = some (r, s')) :
    s'.fileCount = s.fileCount ∧ s'.files = s.files
      ∧ s'.allocationTable = s.allocationTable ∧ listFiles s' = listFiles s := by
  rcases writeFile_cases fopenOk name content s r s' h with c | c | c
  · rw [c.2.1]; exact ⟨rfl, rfl, rfl, rfl⟩
  · rw [c.2.1]; exact ⟨rfl, rfl, rfl, rfl⟩
  · obtain ⟨_, _, k, file, db, _, _, _, _, hs'⟩ := c
    rw [hs']; exact ⟨rfl, rfl, rfl, rfl⟩

/-- C14, instance: the 3000-character write to the 2048-byte file `a.txt`. -/
theorem writeFile_frame_witness :
    ∃ s', writeFile true "a.txt" content3000
        (afterCreate (initializeFileSystem bootState) "a.txt" 2048 644) = some (0, s')
      ∧ s'.files = (afterCreate (initializeFileSystem bootState) "a.txt" 2048 644).files
      ∧ s'.allocationTable
          = (afterCreate (initializeFileSystem bootState) "a.txt" 2048 644).allocationTable := by
  obtain ⟨s', h⟩ := writeFile_a_txt_isSome content3000
  have hf := writeFile_frame true "a.txt" content3000 _ 0 s' h
  exact ⟨s', h, hf.2.1, hf.2.2.1⟩

/-- C15: lookup failure. When no slot among the first `fileCount` holds the name,
`readFile` and `writeFile` return `-1`, print nothing and leave the whole state (directory,
table and blocks) as it was; and a return of `-1` happens only then. -/
theorem lookup_failure (fopenOk : Bool) (name : String) (content : List Char)
    (s : FileSystem) :
    (s.fileCount ≤ s.files.length → NoMatch s name →
      readFile fopenOk name s = some (-1, s, [])
        ∧ writeFile fopenOk name content s = some (-1, s))
    ∧ (∀ s' out, readFile fopenOk name s = some (-1, s', out) →
        NoMatch s name ∧ s' = s ∧ out = [])
    ∧ (∀ s', writeFile fopenOk name content s = some (-1, s') → NoMatch s name ∧ s' = s) := by
  refine ⟨?_, ?_, ?_⟩
  · intro hlen hno
    have hfind := findFile_of_noMatch s.files s.fileCount name s.fileCount.toNat 0 hlen
      (fun j f _ hj hjf => hno j f hj hjf)
    constructor
    · unfold readFile
      rw [hfind]
      simp only [if_true]
    · unfold writeFile
      rw [hfind]
      simp only [if_true]
  · intro s' out h
    rcases readFile_cases fopenOk name s (-1) s' out h with c | c | c
    · exact ⟨fun i f hi hf => findFile_not_found s.files s.fileCount name s.fileCount.toNat 0
        (by omega) c.2.2.2 i f (Nat.zero_le _) hi hf, c.2.1, c.2.2.1⟩
    · exact absurd c.1 (by decide)
    · exact absurd c.1 (by decide)
  · intro s' h
    rcases writeFile_cases fopenOk name content s (-1) s' h with c | c | c
    · exact ⟨fun i f hi hf => findFile_not_found s.files s.fileCount name s.fileCount.toNat 0
        (by omega) c.2.2 i f (Nat.zero_le _) hi hf, c.2.1⟩
    · exact absurd c.1 (by decide)
    · exact absurd c.1 (by decide)

/-- C15, instance: looking up `b.txt` in the state after `createFile("a.txt", 2048, 644)`. -/
theorem lookup_failure_witness :
    readFile true "b.txt" (afterCreate (initializeFileSystem bootState) "a.txt" 2048 644)
        = some (-1, afterCreate (initializeFileSystem bootState) "a.txt" 2048 644, [])
    ∧ writeFile true "b.txt" ['h', 'i']
        (afterCreate (initializeFileSystem bootState) "a.txt" 2048 644)
        = some (-1, afterCreate (initializeFileSystem bootState) "a.txt" 2048 644) := by
  refine (lookup_failure true "b.txt" ['h', 'i']
    (afterCreate (initializeFileSystem bootState) "a.txt" 2048 644)).1 (by decide) ?_
  intro i f hi hf
  have hi0 : i = 0 := by
    have hfc : (afterCreate (initializeFileSystem bootState) "a.txt" 2048 644).fileCount = 1 := by
      decide
    rw [hfc] at hi
    omega
  subst hi0
  have hfile : (afterCreate (initializeFileSystem bootState) "a.txt" 2048 644).files[0]?
      = some { name := "a.txt", size := 2048, permissions := 644, firstDataBlock := 0 } := by
    decide
  rw [hfile] at hf
  simp only [Option.some.injEq] at hf
  rw [← hf]
  decide

/-! ## Claims about the directory bound and the initial state -/

/-- One call keeps `fileCount` between `0` and `MAX_FILES`. -/
theorem step_fileCount (op : Op) (s s' : FileSystem) (h : step op s = some s')
    (hb : 0 ≤ s.fileCount ∧ s.fileCount ≤ MAX_FILES) :
    0 ≤ s'.fileCount ∧ s'.fileCount ≤ MAX_FILES := by
  cases op with
  | create uninit fopenOk name size permissions =>
    simp only [step] at h
    cases hc : createFile uninit fopenOk name size permissions s with
    | none => rw [hc] at h; simp at h
    | some p =>
      obtain ⟨r, s1⟩ := p
      rw [hc] at h
      simp only [Option.map_some', Option.some.injEq] at h
      subst h
      rcases createFile_cases uninit fopenOk name size permissions s r s1 hc with
        c | c | c | c | c | c
      · rw [c.2.1]; exact hb
      · rw [c.2.1]; exact hb
      · rw [c.2.1]; exact hb
      · obtain ⟨_, table, hs'⟩ := c
        rw [hs']; exact hb
      · obtain ⟨_, _, table, hs'⟩ := c
        rw [hs']; exact hb
      · obtain ⟨hr0, _, h0, _, table, hs'⟩ := c
        have hroom : s.fileCount < MAX_FILES := by
          by_contra hfull
          have hge : s.fileCount ≥ MAX_FILES := by omega
          unfold createFile at hc
          rw [if_pos hge] at hc
          simp only [Option.some.injEq, Prod.mk.injEq] at hc
          omega
        rw [hs']
        show 0 ≤ s.fileCount + 1 ∧ s.fileCount + 1 ≤ MAX_FILES
        omega
  | list =>
    simp only [step, Option.some.injEq] at h
    rw [← h]; exact hb
  | read fopenOk name =>
    simp only [step] at h
    cases hc : readFile fopenOk name s with
    | none => rw [hc] at h; simp at h
    | some p =>
      obtain ⟨r, s1, out⟩ := p
      rw [hc] at h
      simp only [Option.map_some', Option.some.injEq] at h
      subst h
      rcases readFile_cases fopenOk name s r s1 out hc with c | c | c
      · rw [c.2.1]; exact hb
      · rw [c.2.1]; exact hb
      · obtain ⟨_, _, k, file, size, _, _, _, _, hs'⟩ := c
        rw [hs']; exact hb
  | write fopenOk name content =>
    simp only [step] at h
    cases hc : writeFile fopenOk name content s with
    | none => rw [hc] at h; simp at h
    | some p =>
      obtain ⟨r, s1⟩ := p
      rw [hc] at h
      simp only [Option.map_some', Option.some.injEq] at h
      subst h
      rw [(writeFile_frame fopenOk name content s r s1 hc).1]
      exact hb

/-- A sequence of calls keeps `fileCount` between `0` and `MAX_FILES`. -/
theorem runOps_fileCount (ops : List Op) :
    ∀ (s s' : FileSystem), runOps ops s = some s' →
      0 ≤ s.fileCount ∧ s.fileCount ≤ MAX_FILES →
      0 ≤ s'.fileCount ∧ s'.fileCount ≤ MAX_FILES := by
  induction ops with
  | nil =>
    intro s s' h hb
    simp only [runOps, Option.some.injEq] at h
    rw [← h]; exact hb
  | cons op ops ih =>
    intro s s' h hb
    simp only [runOps] at h
    cases hs : step op s with
    | none => rw [hs] at h; simp at h
    | some s1 =>
      rw [hs] at h
      simp only [Option.some_bind] at h
      exact ih s1 s' h (step_fileCount op s s1 hs hb)

/-- C16: in every state reached from `initializeFileSystem` by a sequence of `createFile`,
`readFile`, `writeFile` and `listFiles` calls, `0 <= fileCount <= MAX_FILES`, and a
`createFile` issued when `fileCount = MAX_FILES` returns `-1` and leaves the whole
state, hence every descriptor slot, as it was. -/
theorem fileCount_bounded (s0 : FileSystem) (ops : List Op) (s : FileSystem)
    (h : runOps ops (initializeFileSystem s0) = some s) :
    0 ≤ s.fileCount ∧ s.fileCount ≤ MAX_FILES
    ∧ (s.fileCount = MAX_FILES →
        ∀ (uninit : Int) (fopenOk : Bool) (name : String) (size permissions : Int),
          createFile uninit fopenOk name size permissions s = some (-1, s)) := by
  have hb := runOps_fileCount ops (initializeFileSystem s0) s h
    (by show (0 : Int) ≤ 0 ∧ (0 : Int) ≤ MAX_FILES; decide)
  refine ⟨hb.1, hb.2, ?_⟩
  intro hfull uninit fopenOk name size permissions
  unfold createFile
  rw [if_pos (by omega)]

/-- C16, instance: a create, a listing, a write and a read after `initializeFileSystem`. -/
theorem fileCount_bounded_witness :
    ∃ s, runOps [Op.create 0 true "file1.txt" 2048 644, Op.list,
          Op.write true "file1.txt" ['h', 'i'], Op.read true "file1.txt"]
          (initializeFileSystem bootState) = some s
      ∧ 0 ≤ s.fileCount ∧ s.fileCount ≤ MAX_FILES := by
  have hsome : (runOps [Op.create 0 true "file1.txt" 2048 644, Op.list,
      Op.write true "file1.txt" ['h', 'i'], Op.read true "file1.txt"]
      (initializeFileSystem bootState)).isSome = true := by decide
  cases hr : runOps [Op.create 0 true "file1.txt" 2048 644, Op.list,
      Op.write true "file1.txt" ['h', 'i'], Op.read true "file1.txt"]
      (initializeFileSystem bootState) with
  | none => rw [hr] at hsome; simp at hsome
  | some s =>
    have hb := fileCount_bounded bootState _ s hr
    exact ⟨s, rfl, hb.1, hb.2.1⟩

/-- C17: from any prior state `initializeFileSystem` produces `fileCount = 0`, an empty
listing, and a table of `MAX_DATA_BLOCKS` entries all equal to the free marker `-1`, the
`int` whose four bytes `memset` filled with `(unsigned char) -1`. -/
theorem initializeFileSystem_resets (s : FileSystem) :
    (initializeFileSystem s).fileCount = 0
    ∧ listFiles (initializeFileSystem s) = []
    ∧ (initializeFileSystem s).allocationTable = List.replicate MAX_DATA_BLOCKS (-1)
    ∧ (initializeFileSystem s).allocationTable.length = MAX_DATA_BLOCKS
    ∧ freeCount (initializeFileSystem s).allocationTable = MAX_DATA_BLOCKS
    ∧ memsetInt (-1) = -1 := by
  refine ⟨rfl, ?_, init_table s, ?_, init_freeCount s, memsetInt_neg_one⟩
  · unfold listFiles initializeFileSystem
    simp
  · rw [init_table]
    exact List.length_replicate _ _

/-! ## First fit -/

/-- Entry by entry, the scan replaces a free entry whose rank among the free entries is
below the need, and keeps every other entry. -/
theorem allocList_entry (v need : Int) :
    ∀ (xs : List Int) (a : Int) (i : Nat),
      (allocList v need xs a).1[i]? = (xs[i]?).map (fun x =>
        if x = -1 ∧ a + freeCount (xs.take i) < need then
          wrapInt (v + (a + freeCount (xs.take i)))
        else x) := by
  intro xs
  induction xs with
  | nil => intro a i; simp [allocList]
  | cons x xs ih =>
    intro a i
    unfold allocList
    by_cases hlt : a < need
    · rw [if_pos hlt]
      by_cases hx : x = -1
      · rw [if_pos hx]
        cases i with
        | zero => simp [freeCount, hx, hlt]
        | succ j =>
          simp only [List.getElem?_cons_succ, List.take_succ_cons]
          rw [ih (a + 1) j, freeCount_cons, if_pos hx]
          congr 1
          funext y
          have he : a + 1 + (freeCount (List.take j xs) : Int)
              = a + ((freeCount (List.take j xs) + 1 : Nat) : Int) := by
            push_cast; ring
          rw [he]
      · rw [if_neg hx]
        cases i with
        | zero => simp [hx]
        | succ j =>
          simp only [List.getElem?_cons_succ, List.take_succ_cons]
          rw [ih a j, freeCount_cons, if_neg hx]
          rfl
    · rw [if_neg hlt]
      cases h : (x :: xs)[i]? with
      | none => rfl
      | some y =>
        simp only [Option.map_some', Option.some.injEq]
        rw [if_neg]
        intro hc
        have := hc.2
        omega

/-- The table that `createFile` leaves when it passes validation and enough entries are
free: the scanned table. -/
theorem createFile_table_of_enough (uninit : Int) (fopenOk : Bool) (name : String)
    (size permissions : Int) (s : FileSystem) (r : Int) (s' : FileSystem)
    (ht : s.allocationTable.length = MAX_DATA_BLOCKS)
    (h1 : s.fileCount < MAX_FILES) (h2 : name.length ≤ MAX_FILENAME_LENGTH)
    (h3 : 0 < size) (h4 : size ≤ MAX_DATA_BLOCKS * DATA_BLOCK_SIZE)
    (hfree : Int.tdiv size DATA_BLOCK_SIZE ≤ freeCount s.allocationTable)
    (h : createFile uninit fopenOk name size permissions s = some (r, s')) :
    (r = 0 ∨ r = -5) ∧ s'.allocationTable = scanTable uninit size s.allocationTable := by
  rw [createFile_of_valid uninit fopenOk name size permissions s ht h1 h2 h3 h4] at h
  have hneed0 : 0 ≤ Int.tdiv size DATA_BLOCK_SIZE := by
    rw [tdiv_blockSize size h3]; omega
  have hs := allocList_snd_of_enough uninit (Int.tdiv size DATA_BLOCK_SIZE) s.allocationTable 0
    hneed0 (by omega)
  rw [if_neg (by rw [hs]; omega)] at h
  by_cases c5 : fopenOk = false
  · rw [if_pos c5] at h
    simp only [Option.some.injEq, Prod.mk.injEq] at h
    exact ⟨Or.inr h.1.symm, by rw [← h.2]; rfl⟩
  rw [if_neg c5] at h
  cases hw : walkLoop s.dataBlocks
      (allocList uninit (Int.tdiv size DATA_BLOCK_SIZE) s.allocationTable 0).1
      size.toNat size uninit with
  | none => rw [hw] at h; simp at h
  | some l =>
    rw [hw] at h
    simp only at h
    by_cases c6 : 0 ≤ s.fileCount ∧ s.fileCount.toNat < s.files.length
    · rw [if_pos c6] at h
      simp only [Option.some.injEq, Prod.mk.injEq] at h
      exact ⟨Or.inl h.1.symm, by rw [← h.2]; rfl⟩
    · rw [if_neg c6] at h
      simp at h

/-- C19: first fit and ownership frame. For a `createFile` call that passes validation,
needs `k = size / DATA_BLOCK_SIZE` blocks with at least `k` free and reads the unassigned
`firstDataBlock` as `0`, the table keeps its extent and loses exactly `k` free entries; an
entry that was non-free keeps its value; a free entry with fewer than `k` free entries
before it becomes non-free; a free entry with at least `k` free entries before it stays
free. -/
theorem createFile_first_fit (fopenOk : Bool) (name : String) (size permissions : Int)
    (s : FileSystem) (r : Int) (s' : FileSystem)
    (ht : s.allocationTable.length = MAX_DATA_BLOCKS)
    (h1 : s.fileCount < MAX_FILES) (h2 : name.length ≤ MAX_FILENAME_LENGTH)
    (h3 : 0 < size) (h4 : size ≤ MAX_DATA_BLOCKS * DATA_BLOCK_SIZE)
    (hfree : Int.tdiv size DATA_BLOCK_SIZE ≤ freeCount s.allocationTable)
    (h : createFile 0 fopenOk name size permissions s = some (r, s')) :
    (r = 0 ∨ r = -5)
    ∧ s'.allocationTable.length = s.allocationTable.length
    ∧ (freeCount s'.allocationTable : Int)
        = freeCount s.allocationTable - Int.tdiv size DATA_BLOCK_SIZE
    ∧ ∀ (i : Nat) (x : Int), s.allocationTable[i]? = some x →
        (x ≠ -1 → s'.allocationTable[i]? = some x)
        ∧ (x = -1 →
            (freeCount (s.allocationTable.take i) : Int) < Int.tdiv size DATA_BLOCK_SIZE →
            ∃ y, s'.allocationTable[i]? = some y ∧ y ≠ -1)
        ∧ (x = -1 →
            Int.tdiv size DATA_BLOCK_SIZE ≤ freeCount (s.allocationTable.take i) →
            s'.allocationTable[i]? = some (-1)) := by
  obtain ⟨hr, htab⟩ := createFile_table_of_enough 0 fopenOk name size permissions s r s'
    ht h1 h2 h3 h4 hfree h
  have hneed : Int.tdiv size DATA_BLOCK_SIZE ≤ 1000 := by
    rw [tdiv_blockSize size h3]
    rw [capacity_eq] at h4
    omega
  refine ⟨hr, ?_, ?_, ?_⟩
  · rw [htab, scanTable_length]
  · rw [htab]
    exact scanTable_freeCount_of_enough size s.allocationTable h3 h4 hfree
  · intro i x hx
    have hget := allocList_entry 0 (Int.tdiv size DATA_BLOCK_SIZE) s.allocationTable 0 i
    rw [hx] at hget
    simp only [Option.map_some', zero_add] at hget
    rw [htab]
    unfold scanTable
    refine ⟨?_, ?_, ?_⟩
    · intro hne
      rw [hget, if_neg (fun hc => hne hc.1)]
    · intro he hrank
      rw [hget, if_pos ⟨he, hrank⟩]
      refine ⟨_, rfl, ?_⟩
      rw [wrapInt_of_range _ (by omega) (by omega)]
      omega
    · intro he hrank
      rw [hget, if_neg (fun hc => by have := hc.2; omega)]
      rw [he]

/-- C19, instance: `createFile("file1.txt", 2048, 644)` after `initializeFileSystem` takes
entries 0 and 1 and leaves entry 2 free. -/
theorem createFile_first_fit_witness :
    ∃ s', createFile 0 true "file1.txt" 2048 644 (initializeFileSystem bootState)
        = some (0, s')
      ∧ (∃ y, s'.allocationTable[0]? = some y ∧ y ≠ -1)
      ∧ (∃ y, s'.allocationTable[1]? = some y ∧ y ≠ -1)
      ∧ s'.allocationTable[2]? = some (-1) := by
  have hcall : createFile 0 true "file1.txt" 2048 644 (initializeFileSystem bootState)
      = some (0, afterCreate (initializeFileSystem bootState) "file1.txt" 2048 644) :=
    createFile_sound "file1.txt" 2048 644 _ (init_sound bootState bootState_wellFormed)
      (by decide) (by decide) (by decide) (by decide)
      (by
        have h1 : Int.tdiv 2048 (DATA_BLOCK_SIZE : Int) = 2 := by decide
        have h2 := init_freeCount bootState
        have h3 : MAX_DATA_BLOCKS = 1000 := rfl
        rw [h1, h2, h3]
        decide)
  have h := createFile_first_fit true "file1.txt" 2048 644 (initializeFileSystem bootState) 0
    (afterCreate (initializeFileSystem bootState) "file1.txt" 2048 644)
    (by rw [init_table]; exact List.length_replicate _ _)
    (by decide) (by decide) (by decide) (by decide)
    (by
      have h1 : Int.tdiv 2048 (DATA_BLOCK_SIZE : Int) = 2 := by decide
      have h2 := init_freeCount bootState
      have h3 : MAX_DATA_BLOCKS = 1000 := rfl
      rw [h1, h2, h3]
      decide)
    hcall
  have hneed : Int.tdiv 2048 (DATA_BLOCK_SIZE : Int) = 2 := by decide
  have e0 : (initializeFileSystem bootState).allocationTable[0]? = some (-1) := by decide
  have e1 : (initializeFileSystem bootState).allocationTable[1]? = some (-1) := by decide
  have e2 : (initializeFileSystem bootState).allocationTable[2]? = some (-1) := by decide
  refine ⟨_, hcall, ?_, ?_, ?_⟩
  · exact (h.2.2.2 0 (-1) e0).2.1 rfl (by rw [hneed]; decide)
  · exact (h.2.2.2 1 (-1) e1).2.1 rfl (by rw [hneed]; decide)
  · exact (h.2.2.2 2 (-1) e2).2.2 rfl (by rw [hneed]; decide)

/-- C20 (the code breaks the claim): in pros2.c the three calls of `main` after
`initializeFileSystem` all print the success line and fill slots 0, 1 and 2, but
`fileCount` stays `0` and `listFiles` enumerates nothing. -/
theorem pros2_createFile_not_listed :
    ((Pros2.createFile true "file1.txt" 2048 644 (initializeFileSystem bootState)).bind
      (fun r1 => (Pros2.createFile true "file2.txt" 1024 600 r1.2).bind
        (fun r2 => (Pros2.createFile true "file3.txt" 4096 777 r2.2).map
          (fun r3 => [r1.1, r2.1, r3.1]))))
      = some [Pros2.Message.created, Pros2.Message.created, Pros2.Message.created]
    ∧ ((Pros2.createFile true "file1.txt" 2048 644 (initializeFileSystem bootState)).bind
      (fun r1 => (Pros2.createFile true "file2.txt" 1024 600 r1.2).bind
        (fun r2 => (Pros2.createFile true "file3.txt" 4096 777 r2.2).map
          (fun r3 => (r3.2.files.take 3).map (fun f => (f.name, f.size, f.permissions))))))
      = some [("file1.txt", 2048, 644), ("file2.txt", 1024, 600), ("file3.txt", 4096, 777)]
    ∧ ((Pros2.createFile true "file1.txt" 2048 644 (initializeFileSystem bootState)).bind
      (fun r1 => (Pros2.createFile true "file2.txt" 1024 600 r1.2).bind
        (fun r2 => (Pros2.createFile true "file3.txt" 4096 777 r2.2).map
          (fun r3 => (r3.2.fileCount, listFiles r3.2)))))
      = some (0, []) := by
  refine ⟨by decide, by decide, by decide⟩

/-! ## Writing and reading through a table entry that points at itself -/

theorem writeLoop_stop (table : List Int) (size : Int) (fuel : Nat)
    (dataBlocks : List DataBlock) (content : List Char) (contentLength blockCount b : Int)
    (h : ¬ (blockCount < Int.tdiv size DATA_BLOCK_SIZE ∧ b ≠ -1 ∧ contentLength > 0)) :
    writeLoop table size fuel dataBlocks content contentLength blockCount b
      = some dataBlocks := by
  cases fuel with
  | zero => simp only [writeLoop, if_neg h]
  | succ n => simp only [writeLoop, if_neg h]

theorem readLoop_stop (dataBlocks : List DataBlock) (table : List Int) (fuel : Nat)
    (size b : Int) (h : ¬ (size > 0 ∧ b ≠ -1)) :
    readLoop dataBlocks table fuel size b = some (size, []) := by
  cases fuel with
  | zero => simp only [readLoop, if_neg h]
  | succ n => simp only [readLoop, if_neg h]

theorem cString_of_no_nul (d : List Char) (h : ∀ ch ∈ d, ch ≠ NUL) : cString d = d := by
  unfold cString
  rw [List.takeWhile_eq_self_iff]
  intro ch hch
  simpa using h ch hch

/-- A `writeFile` loop for a two-block size on a head `0` whose table entry is `0`: both
rounds store into block `0`, which ends up holding the second block of the content. -/
theorem writeLoop_self_loop (table : List Int) (dataBlocks : List DataBlock) (blk : DataBlock)
    (c : List Char) (fuel : Nat)
    (htab : table[0]? = some 0) (hblk : dataBlocks[0]? = some blk)
    (hlen : 2 * DATA_BLOCK_SIZE ≤ c.length) :
    writeLoop table 2048 (fuel + 2) dataBlocks c c.length 0 0
      = some (dataBlocks.set 0
          { blk with data := (c.drop DATA_BLOCK_SIZE).take DATA_BLOCK_SIZE }) := by
  have hbs : DATA_BLOCK_SIZE = 1024 := rfl
  have hneed : Int.tdiv 2048 (DATA_BLOCK_SIZE : Int) = 2 := by decide
  have hpos : 0 < dataBlocks.length := by
    obtain ⟨h, _⟩ := List.getElem?_eq_some.1 hblk
    exact h
  rw [writeLoop, hneed]
  rw [if_pos ⟨by decide, by decide, by omega⟩, if_pos (le_refl _)]
  simp only [Int.toNat_zero]
  rw [hblk, htab]
  simp only
  rw [writeLoop, hneed]
  rw [if_pos ⟨by decide, by decide, by omega⟩, if_pos (le_refl _)]
  simp only [Int.toNat_zero]
  rw [List.getElem?_set_self hpos, htab]
  simp only
  rw [writeLoop_stop _ _ _ _ _ _ _ _ (by rw [hneed]; intro hc; have := hc.1; omega)]
  rw [List.set_set]
  have hd : (c.drop DATA_BLOCK_SIZE).length = c.length - DATA_BLOCK_SIZE := List.length_drop _ _
  have hz : DATA_BLOCK_SIZE - (c.drop DATA_BLOCK_SIZE).length = 0 := by omega
  unfold strncpy
  rw [hz]
  simp

/-- A `readFile` loop for a two-block size on a head `0` whose table entry is `0`: both
rounds print block `0`. -/
theorem readLoop_self_loop (table : List Int) (dataBlocks : List DataBlock) (blk : DataBlock)
    (fuel : Nat) (htab : table[0]? = some 0) (hblk : dataBlocks[0]? = some blk) :
    readLoop dataBlocks table (fuel + 2) 2048 0
      = some (0, cString blk.data ++ (cString blk.data ++ [])) := by
  have hbs : (DATA_BLOCK_SIZE : Int) = 1024 := by decide
  rw [readLoop]
  rw [if_pos ⟨by decide, by decide⟩, if_pos (le_refl _)]
  simp only [Int.toNat_zero]
  rw [hblk, htab]
  simp only
  rw [readLoop, hbs]
  rw [if_pos ⟨by decide, by decide⟩, if_pos (le_refl _)]
  simp only [Int.toNat_zero]
  rw [hblk, htab]
  simp only
  rw [readLoop_stop _ _ _ _ _ (by intro hc; have := hc.1; omega)]
  rfl


theorem content3000_second_block :
    (content3000.drop DATA_BLOCK_SIZE).take DATA_BLOCK_SIZE = List.replicate 1024 'b' := by
  have hbs : DATA_BLOCK_SIZE = 1024 := rfl
  unfold content3000
  rw [hbs, List.append_assoc, List.drop_left' (List.length_replicate _ _),
    List.take_left' (List.length_replicate _ _)]

theorem content3000_prefix :
    content3000.take (2 * DATA_BLOCK_SIZE) = List.replicate 1024 'a' ++ List.replicate 1024 'b' := by
  have hbs : 2 * DATA_BLOCK_SIZE = 2048 := rfl
  unfold content3000
  rw [hbs, List.take_left']
  rw [List.length_append, List.length_replicate, List.length_replicate]

theorem content3000_length : content3000.length = 3000 := by
  simp [content3000]

theorem cString_replicate_b : cString (List.replicate 1024 'b') = List.replicate 1024 'b' := by
  apply cString_of_no_nul
  intro ch hch
  rw [List.eq_of_mem_replicate hch]
  decide


theorem afterCreate_a_txt_table0 :
    (afterCreate (initializeFileSystem bootState) "a.txt" 2048 644).allocationTable[0]?
      = some 0 := by decide

theorem afterCreate_a_txt_block0 :
    (afterCreate (initializeFileSystem bootState) "a.txt" 2048 644).dataBlocks[0]?
      = some { nextDataBlock := 0, data := List.replicate DATA_BLOCK_SIZE NUL } := by decide

/-- In the state after `createFile("a.txt", 2048, 644)`, a write of at least two blocks of
characters followed by a read prints the second block of the content twice. -/
theorem write_read_a_txt (c : List Char) (hlen : 2 * DATA_BLOCK_SIZE ≤ c.length)
    (hnul : ∀ ch ∈ c, ch ≠ NUL) :
    (writeFile true "a.txt" c
        (afterCreate (initializeFileSystem bootState) "a.txt" 2048 644)).bind
      (fun r2 => (readFile true "a.txt" r2.2).map (fun r3 => (r2.1, r3.1, r3.2.2)))
      = some (0, 0, (c.drop DATA_BLOCK_SIZE).take DATA_BLOCK_SIZE
          ++ (c.drop DATA_BLOCK_SIZE).take DATA_BLOCK_SIZE) := by
  have hwl := writeLoop_self_loop
    (afterCreate (initializeFileSystem bootState) "a.txt" 2048 644).allocationTable
    (afterCreate (initializeFileSystem bootState) "a.txt" 2048 644).dataBlocks _ c
    (c.length - 2) afterCreate_a_txt_table0 afterCreate_a_txt_block0 hlen
  have hbs : DATA_BLOCK_SIZE = 1024 := rfl
  rw [Nat.sub_add_cancel (by omega)] at hwl
  have hw := writeFile_of_found "a.txt" c
    (afterCreate (initializeFileSystem bootState) "a.txt" 2048 644) 0 _ _
    afterCreate_a_txt_find (by decide) afterCreate_a_txt_file hwl
  rw [hw]
  simp only [Option.some_bind]
  have hpos : 0 < (afterCreate (initializeFileSystem bootState) "a.txt" 2048 644).dataBlocks.length := by
    obtain ⟨h, _⟩ := List.getElem?_eq_some.1 afterCreate_a_txt_block0
    exact h
  have hrl := readLoop_self_loop
    (afterCreate (initializeFileSystem bootState) "a.txt" 2048 644).allocationTable
    ((afterCreate (initializeFileSystem bootState) "a.txt" 2048 644).dataBlocks.set 0
      { nextDataBlock := 0, data := (c.drop DATA_BLOCK_SIZE).take DATA_BLOCK_SIZE })
    _ 2046 afterCreate_a_txt_table0 (List.getElem?_set_self hpos)
  have hr := readFile_of_found "a.txt"
    { afterCreate (initializeFileSystem bootState) "a.txt" 2048 644 with
      dataBlocks := (afterCreate (initializeFileSystem bootState) "a.txt" 2048 644).dataBlocks.set 0
        { nextDataBlock := 0, data := (c.drop DATA_BLOCK_SIZE).take DATA_BLOCK_SIZE } }
    0 _ _ _ afterCreate_a_txt_find (by decide) afterCreate_a_txt_file hrl
  rw [hr]
  simp only [Option.map_some', List.append_nil]
  rw [cString_of_no_nul _ (fun ch hch => hnul ch (List.mem_of_mem_drop (List.mem_of_mem_take hch)))]


theorem content3000_no_nul : ∀ ch ∈ content3000, ch ≠ NUL := by
  intro ch hch
  unfold content3000 at hch
  rcases List.mem_append.1 hch with h | h
  · rcases List.mem_append.1 h with h | h
    · rw [List.eq_of_mem_replicate h]; decide
    · rw [List.eq_of_mem_replicate h]; decide
  · rw [List.eq_of_mem_replicate h]; decide

/-- C11 (the code breaks the claim): after `initializeFileSystem` and
`createFile("a.txt", 2048, 644)` (table entry 0 holds 0, see C1), a write of `hi` followed
by a read prints `hihi`; a write of the 3000 characters `a`..`b`..`c` followed by a read
prints 1024 times `b` twice, where the first 2048 characters of the content are 1024 times
`a` and 1024 times `b`. Both rounds of either loop use block 0. -/
theorem write_read_round_trip_broken :
    (createFile 0 true "a.txt" 2048 644 (initializeFileSystem bootState)).bind
        (fun r1 => (writeFile true "a.txt" ['h', 'i'] r1.2).bind
          (fun r2 => (readFile true "a.txt" r2.2).map (fun r3 => (r2.1, r3.1, r3.2.2))))
      = some (0, 0, ['h', 'i', 'h', 'i'])
    ∧ (createFile 0 true "a.txt" 2048 644 (initializeFileSystem bootState)).bind
        (fun r1 => (writeFile true "a.txt" content3000 r1.2).bind
          (fun r2 => (readFile true "a.txt" r2.2).map (fun r3 => (r2.1, r3.1, r3.2.2))))
      = some (0, 0, List.replicate 1024 'b' ++ List.replicate 1024 'b')
    ∧ content3000.take (2 * DATA_BLOCK_SIZE)
      = List.replicate 1024 'a' ++ List.replicate 1024 'b' := by
  refine ⟨by decide, ?_, content3000_prefix⟩
  rw [createFile_a_txt]
  simp only [Option.some_bind]
  rw [write_read_a_txt content3000 (by rw [content3000_length]; decide) content3000_no_nul,
    content3000_second_block]

/-- C12 (the code breaks the claim): after `initializeFileSystem`, `createFile("a", 1024, 0)`
and `createFile("b", 1024, 0)` both succeed and both descriptors get head `0`, so the walk
from either head visits block `0`; `readFile("b")` prints nothing before and `hi` after
`writeFile("a", "hi")`. -/
theorem files_share_block :
    (createAll 0 true [⟨"a", 1024, 0⟩, ⟨"b", 1024, 0⟩] (initializeFileSystem bootState)).map
        (fun r => (r.1, (r.2.files.take 2).map (fun f => (f.name, f.firstDataBlock))))
      = some ([0, 0], [("a", 0), ("b", 0)])
    ∧ (createAll 0 true [⟨"a", 1024, 0⟩, ⟨"b", 1024, 0⟩] (initializeFileSystem bootState)).bind
        (fun r => walkLoop r.2.dataBlocks r.2.allocationTable 1024 1024 0)
      = some [0]
    ∧ (createAll 0 true [⟨"a", 1024, 0⟩, ⟨"b", 1024, 0⟩] (initializeFileSystem bootState)).bind
        (fun r => (readFile true "b" r.2).map (fun r3 => (r3.1, r3.2.2)))
      = some (0, [])
    ∧ (createAll 0 true [⟨"a", 1024, 0⟩, ⟨"b", 1024, 0⟩] (initializeFileSystem bootState)).bind
        (fun r => (writeFile true "a" ['h', 'i'] r.2).bind
          (fun r3 => (readFile true "b" r3.2).map (fun r4 => (r3.1, r4.1, r4.2.2))))
      = some (0, 0, ['h', 'i']) := by
  refine ⟨by decide, by decide, by decide, by decide⟩


/-! ## `createFile` of Evaluationpros5.c: the piece before the lock and the critical section -/

/-- Run without interruption, `createFile` of Evaluationpros5.c is `createFile` of
errorhandlepros4.c. -/
theorem eval5_createFile_eq (uninit : Int) (fopenOk : Bool) (name : String)
    (size permissions : Int) (s : FileSystem) :
    Eval5.createFile uninit fopenOk name size permissions s
      = createFile uninit fopenOk name size permissions s := by
  unfold Eval5.createFile Eval5.createFilePrepare createFile
  by_cases c1 : s.fileCount ≥ MAX_FILES
  · simp only [if_pos c1]
  simp only [if_neg c1]
  by_cases c2 : name.length > MAX_FILENAME_LENGTH
  · simp only [if_pos c2]
  simp only [if_neg c2]
  by_cases c3 : size ≤ 0 ∨ size > MAX_DATA_BLOCKS * DATA_BLOCK_SIZE
  · simp only [if_pos c3]
  simp only [if_neg c3]
  cases allocLoop uninit size MAX_DATA_BLOCKS s.allocationTable 0 0 with
  | none => rfl
  | some p =>
    obtain ⟨table, allocatedBlocks⟩ := p
    simp only
    by_cases c4 : allocatedBlocks < Int.tdiv size DATA_BLOCK_SIZE
    · simp only [if_pos c4]
    simp only [if_neg c4]
    by_cases c5 : fopenOk = false
    · simp only [if_pos c5]
    simp only [if_neg c5]
    cases walkLoop s.dataBlocks table size.toNat size uninit with
    | none => rfl
    | some l => rfl

/-- On a sound state with room in the directory and enough free entries, the piece before
the lock takes the blocks and leaves the descriptor pending. -/
theorem eval5_prepare_pending (name : String) (size permissions : Int) (s : FileSystem)
    (hs : Sound s) (h1 : s.fileCount < MAX_FILES) (h2 : name.length ≤ MAX_FILENAME_LENGTH)
    (h3 : 0 < size) (h4 : size ≤ MAX_DATA_BLOCKS * DATA_BLOCK_SIZE)
    (hfree : Int.tdiv size DATA_BLOCK_SIZE ≤ freeCount s.allocationTable) :
    Eval5.createFilePrepare 0 true name size permissions s =
      some (Eval5.Prepared.pending
          { name := storedName name size, size := size, permissions := permissions,
            firstDataBlock := 0 },
        { s with allocationTable := scanTable 0 size s.allocationTable }) := by
  obtain ⟨⟨hfl, hdl, htl, _⟩, hr, h0⟩ := hs
  unfold Eval5.createFilePrepare
  rw [if_neg (by omega), if_neg (by omega), if_neg (by omega)]
  simp only
  rw [allocLoop_eq_allocList 0 size MAX_DATA_BLOCKS s.allocationTable 0 0 htl (by omega)
    (by omega)]
  simp only [List.take_zero, List.drop_zero, List.nil_append]
  have hneed0 : 0 ≤ Int.tdiv size DATA_BLOCK_SIZE := by
    rw [tdiv_blockSize size h3]; omega
  have hsnd := allocList_snd_of_enough 0 (Int.tdiv size DATA_BLOCK_SIZE) s.allocationTable 0
    hneed0 (by omega)
  rw [if_neg (by rw [hsnd]; omega), if_neg (by decide)]
  obtain ⟨l, hl⟩ := walkLoop_isSome s.dataBlocks (scanTable 0 size s.allocationTable) hdl
    (by rw [scanTable_length]; exact htl) (scanTable_inRange size _ h3 h4 hr)
    size.toNat size 0 (by omega) (by omega) (by rw [maxBlocks_eq]; omega)
  unfold scanTable at hl
  rw [hl]
  rfl

/-- The state that a list of requests leaves when each succeeds with `firstDataBlock` read
as `0` is sound and has lost at most the specification's block demand. -/
theorem createAll_sound_state (reqs : List Request) :
    ∀ s : FileSystem, Sound s → s.fileCount + reqs.length ≤ MAX_FILES →
      (∀ r ∈ reqs, r.name.length ≤ MAX_FILENAME_LENGTH ∧ 0 < r.size
        ∧ r.size ≤ MAX_DATA_BLOCKS * DATA_BLOCK_SIZE) →
      (reqs.map (fun r => ceilBlocks r.size)).sum ≤ freeCount s.allocationTable →
      ∃ s', createAll 0 true reqs s = some (List.replicate reqs.length 0, s')
        ∧ s'.fileCount = s.fileCount + reqs.length
        ∧ Sound s'
        ∧ (freeCount s.allocationTable : Int) - (reqs.map (fun r => ceilBlocks r.size)).sum
            ≤ freeCount s'.allocationTable := by
  induction reqs with
  | nil =>
    intro s hs _ _ _
    exact ⟨s, rfl, by simp, hs, by simp⟩
  | cons r rs ih =>
    intro s hs hcount hvalid hdemand
    obtain ⟨hn, h3, h4⟩ := hvalid r (List.mem_cons_self _ _)
    have hvalid' : ∀ x ∈ rs, x.name.length ≤ MAX_FILENAME_LENGTH ∧ 0 < x.size
        ∧ x.size ≤ MAX_DATA_BLOCKS * DATA_BLOCK_SIZE :=
      fun x hx => hvalid x (List.mem_cons_of_mem _ hx)
    rw [List.map_cons, List.sum_cons] at hdemand ⊢
    have hrest := sum_ceilBlocks_nonneg rs (fun x hx => (hvalid' x hx).2.1)
    have hle := tdiv_le_ceilBlocks r.size h3
    have hlen : ((r :: rs).length : Int) = rs.length + 1 := by simp
    have h1 : s.fileCount < MAX_FILES := by omega
    have hfree : Int.tdiv r.size DATA_BLOCK_SIZE ≤ freeCount s.allocationTable := by omega
    have hc := createFile_sound r.name r.size r.permissions s hs h1 hn h3 h4 hfree
    have hfc := afterCreate_freeCount r.name r.size r.permissions s h3 h4 hfree
    obtain ⟨s', hs1, hs2, hs3, hs4⟩ := ih (afterCreate s r.name r.size r.permissions)
      (afterCreate_sound r.name r.size r.permissions s hs h3 h4)
      (by show s.fileCount + 1 + rs.length ≤ MAX_FILES; omega)
      hvalid' (by omega)
    refine ⟨s', ?_, ?_, hs3, by omega⟩
    · unfold createAll
      rw [hc]
      simp only
      rw [hs1]
      rfl
    · rw [hs2]
      show s.fileCount + 1 + rs.length = _
      omega


/-- C18 (the code breaks the claim): in Evaluationpros5.c the lock is taken only around the
insertion. (1) After `initializeFileSystem`, when one thread has run `createFile` up to the
lock, a block is taken while the directory is still empty, and that is what a `listFiles`
or a `createFile` of another thread finds. (2) In the state after 99 successful creates,
let two threads run `createFile("file_1.txt", 1024, 644)` and
`createFile("file_2.txt", 1024, 644)` up to the lock, one after the other: both pass the
capacity check with `fileCount = 99`; the first critical section brings `fileCount` to
`MAX_FILES`, and the second stores at `files[MAX_FILES]`, outside the array. -/
theorem eval5_createFile_not_atomic :
    (∃ f s1, Eval5.createFilePrepare 0 true "file_1.txt" 1024 644
          (initializeFileSystem bootState) = some (Eval5.Prepared.pending f, s1)
        ∧ listFiles s1 = [] ∧ freeCount s1.allocationTable = 999)
    ∧ (∃ s99 fA sA fB sAB s100,
        createAll 0 true (List.replicate 99 ⟨"f", 1024, 644⟩) (initializeFileSystem bootState)
          = some (List.replicate 99 0, s99)
        ∧ s99.fileCount = 99
        ∧ Eval5.createFilePrepare 0 true "file_1.txt" 1024 644 s99
          = some (Eval5.Prepared.pending fA, sA)
        ∧ Eval5.createFilePrepare 0 true "file_2.txt" 1024 644 sA
          = some (Eval5.Prepared.pending fB, sAB)
        ∧ Eval5.createFileCommit fA sAB = some (0, s100)
        ∧ s100.fileCount = MAX_FILES
        ∧ Eval5.createFileCommit fB s100 = none) := by
  have hneed : Int.tdiv 1024 (DATA_BLOCK_SIZE : Int) = 1 := by decide
  have hmb : MAX_DATA_BLOCKS = 1000 := rfl
  have hs0 := init_sound bootState bootState_wellFormed
  have hfree0 := init_freeCount bootState
  constructor
  · refine ⟨_, _, eval5_prepare_pending "file_1.txt" 1024 644 _ hs0 (by decide) (by decide)
      (by decide) (by decide) (by rw [hneed, hfree0, hmb]; decide), ?_, ?_⟩
    · show listFiles { initializeFileSystem bootState with
        allocationTable := scanTable 0 1024 (initializeFileSystem bootState).allocationTable }
        = []
      unfold listFiles initializeFileSystem
      simp
    · have hf := scanTable_freeCount_of_enough 1024
        (initializeFileSystem bootState).allocationTable (by decide) (by decide)
        (by rw [hneed, hfree0, hmb]; decide)
      rw [hneed, hfree0, hmb] at hf
      show freeCount (scanTable 0 1024 (initializeFileSystem bootState).allocationTable) = 999
      omega
  · have hceil : ceilBlocks 1024 = 1 := by decide
    have hsum : ((List.replicate 99 (⟨"f", 1024, 644⟩ : Request)).map
        (fun r => ceilBlocks r.size)).sum = 99 := by
      rw [List.map_replicate, List.sum_replicate, hceil]
      decide
    obtain ⟨s99, hrun, hcount, hsound, hfree⟩ := createAll_sound_state
      (List.replicate 99 ⟨"f", 1024, 644⟩) (initializeFileSystem bootState) hs0
      (by rw [List.length_replicate]; decide)
      (fun r hr => by rw [List.eq_of_mem_replicate hr]; decide)
      (by rw [hsum, hfree0, hmb]; decide)
    rw [List.length_replicate] at hrun hcount
    rw [hsum, hfree0, hmb] at hfree
    have hcount99 : s99.fileCount = 99 := by
      rw [hcount]
      decide
    have hmf := maxFiles_eq
    -- first thread up to the lock
    have hA := eval5_prepare_pending "file_1.txt" 1024 644 s99 hsound (by omega) (by decide)
      (by decide) (by decide) (by rw [hneed]; omega)
    have hfA := scanTable_freeCount_of_enough 1024 s99.allocationTable (by decide) (by decide)
      (by rw [hneed]; omega)
    rw [hneed] at hfA
    have hsoundA : Sound { s99 with allocationTable := scanTable 0 1024 s99.allocationTable } :=
      ⟨⟨hsound.1.1, hsound.1.2.1, by
          show (scanTable 0 1024 s99.allocationTable).length = _
          rw [scanTable_length]; exact hsound.1.2.2.1, hsound.1.2.2.2⟩,
        scanTable_inRange 1024 _ (by decide) (by decide) hsound.2.1, hsound.2.2⟩
    -- second thread up to the lock
    have hB := eval5_prepare_pending "file_2.txt" 1024 644
      { s99 with allocationTable := scanTable 0 1024 s99.allocationTable } hsoundA
      (by show s99.fileCount < MAX_FILES; omega) (by decide) (by decide) (by decide)
      (by
        show Int.tdiv 1024 (DATA_BLOCK_SIZE : Int)
          ≤ (freeCount (scanTable 0 1024 s99.allocationTable) : Int)
        rw [hneed]; omega)
    have hlen : s99.files.length = 100 := hsound.1.1
    have hC : Eval5.createFileCommit
        { name := "file_1.txt", size := 1024, permissions := 644, firstDataBlock := 0 }
        { s99 with allocationTable :=
            scanTable 0 1024 (scanTable 0 1024 s99.allocationTable) }
        = some (0, { s99 with
            allocationTable := scanTable 0 1024 (scanTable 0 1024 s99.allocationTable)
            files := s99.files.set s99.fileCount.toNat
              { name := "file_1.txt", size := 1024, permissions := 644, firstDataBlock := 0 }
            fileCount := s99.fileCount + 1 }) := by
      unfold Eval5.createFileCommit
      rw [if_pos]
      constructor
      · show 0 ≤ s99.fileCount
        omega
      · show s99.fileCount.toNat < s99.files.length
        omega
    refine ⟨s99, _, _, _, _, _, hrun, hcount99, hA, hB, hC, ?_, ?_⟩
    · show s99.fileCount + 1 = MAX_FILES
      omega
    · unfold Eval5.createFileCommit
      rw [if_neg]
      intro hc
      have h2 := hc.2
      have h3 : (s99.fileCount + 1).toNat < (s99.files.set s99.fileCount.toNat
          { name := "file_1.txt", size := 1024, permissions := 644,
            firstDataBlock := 0 }).length := h2
      rw [List.length_set] at h3
      omega


/-! ## The range invariant of the allocation table -/

/-- The walk of `createFile` returns only block indices inside the pool. -/
theorem walkLoop_visited (dataBlocks : List DataBlock) (table : List Int)
    (hd : dataBlocks.length = MAX_DATA_BLOCKS) :
    ∀ (fuel : Nat) (size b : Int) (l : List Int),
      walkLoop dataBlocks table fuel size b = some l →
      ∀ x ∈ l, 0 ≤ x ∧ x < (MAX_DATA_BLOCKS : Int) := by
  intro fuel
  induction fuel with
  | zero =>
    intro size b l h
    unfold walkLoop at h
    by_cases hg : size > 0 ∧ b ≠ -1
    · rw [if_pos hg] at h; simp at h
    · rw [if_neg hg] at h
      simp only [Option.some.injEq] at h
      rw [← h]
      intro x hx
      simp at hx
  | succ fuel ih =>
    intro size b l h
    unfold walkLoop at h
    by_cases hg : size > 0 ∧ b ≠ -1
    · rw [if_pos hg] at h
      by_cases hb : 0 ≤ b
      · rw [if_pos hb] at h
        cases hdb : dataBlocks[b.toNat]? with
        | none => rw [hdb] at h; simp at h
        | some blk =>
          cases htb : table[b.toNat]? with
          | none => rw [hdb, htb] at h; simp at h
          | some next =>
            rw [hdb, htb] at h
            simp only at h
            cases hrec : walkLoop dataBlocks table fuel (size - DATA_BLOCK_SIZE) next with
            | none => rw [hrec] at h; simp at h
            | some l' =>
              rw [hrec] at h
              simp only [Option.map_some', Option.some.injEq] at h
              rw [← h]
              intro x hx
              rcases List.mem_cons.1 hx with hx | hx
              · rw [hx]
                obtain ⟨hlt, _⟩ := List.getElem?_eq_some.1 hdb
                refine ⟨hb, ?_⟩
                omega
              · exact ih _ _ _ hrec x hx
      · rw [if_neg hb] at h; simp at h
    · rw [if_neg hg] at h
      simp only [Option.some.injEq] at h
      rw [← h]
      intro x hx
      simp at hx

/-- The lookup loop stays inside `files` when `fileCount` does not exceed its extent. -/
theorem findFile_isSome (files : List FileMetadata) (fileCount : Int) (name : String)
    (hlen : fileCount ≤ files.length) :
    ∀ (fuel i : Nat), ∃ k, findFile files fileCount name fuel i = some k := by
  intro fuel
  induction fuel with
  | zero => intro i; exact ⟨-1, rfl⟩
  | succ fuel ih =>
    intro i
    rw [findFile]
    by_cases hg : (i : Int) < fileCount
    · rw [if_pos hg]
      have hlt : i < files.length := by omega
      rw [List.getElem?_eq_getElem hlt]
      simp only
      by_cases hn : files[i].name = name
      · rw [if_pos hn]; exact ⟨_, rfl⟩
      · rw [if_neg hn]; exact ih (i + 1)
    · rw [if_neg hg]; exact ⟨-1, rfl⟩

/-- On a sound state whose descriptors have head `0`, `readFile` has a result. -/
theorem readFile_isSome (fopenOk : Bool) (name : String) (s : FileSystem)
    (hs : Sound s) (hfc : s.fileCount ≤ MAX_FILES) (hz : HeadsZero s) :
    ∃ r, readFile fopenOk name s = some r := by
  obtain ⟨⟨hfl, hdl, htl, _⟩, hr, h0⟩ := hs
  have hmf := maxFiles_eq
  obtain ⟨k, hk⟩ := findFile_isSome s.files s.fileCount name (by omega) s.fileCount.toNat 0
  unfold readFile
  rw [hk]
  simp only
  by_cases c1 : k = -1
  · rw [if_pos c1]; exact ⟨_, rfl⟩
  rw [if_neg c1]
  obtain ⟨hk0, hklt, f, hf, _⟩ := findFile_found s.files s.fileCount name _ _ k hk c1
  rw [hf]
  simp only
  by_cases c2 : fopenOk = false
  · rw [if_pos c2]; exact ⟨_, rfl⟩
  rw [if_neg c2]
  have hhead : f.firstDataBlock = 0 := hz k.toNat f (by omega) hf
  obtain ⟨p, hp⟩ := readLoop_isSome s.dataBlocks s.allocationTable hdl htl hr
    f.size.toNat f.size f.firstDataBlock (by omega) (by rw [hhead]; decide)
    (by rw [hhead]; decide)
  rw [hp]
  exact ⟨_, rfl⟩

/-- On a sound state whose descriptors have head `0`, `writeFile` has a result. -/
theorem writeFile_isSome (fopenOk : Bool) (name : String) (content : List Char)
    (s : FileSystem) (hs : Sound s) (hfc : s.fileCount ≤ MAX_FILES) (hz : HeadsZero s) :
    ∃ r, writeFile fopenOk name content s = some r := by
  obtain ⟨⟨hfl, hdl, htl, _⟩, hr, h0⟩ := hs
  have hmf := maxFiles_eq
  obtain ⟨k, hk⟩ := findFile_isSome s.files s.fileCount name (by omega) s.fileCount.toNat 0
  unfold writeFile
  rw [hk]
  simp only
  by_cases c1 : k = -1
  · rw [if_pos c1]; exact ⟨_, rfl⟩
  rw [if_neg c1]
  obtain ⟨hk0, hklt, f, hf, _⟩ := findFile_found s.files s.fileCount name _ _ k hk c1
  rw [hf]
  simp only
  by_cases c2 : fopenOk = false
  · rw [if_pos c2]; exact ⟨_, rfl⟩
  rw [if_neg c2]
  have hhead : f.firstDataBlock = 0 := hz k.toNat f (by omega) hf
  obtain ⟨db, hdb, _⟩ := writeLoop_isSome s.allocationTable f.size htl hr content.length
    s.dataBlocks content content.length 0 f.firstDataBlock hdl (le_refl _)
    (by rw [hhead]; decide) (by rw [hhead]; decide)
  rw [hdb]
  exact ⟨_, rfl⟩

/-- A `createFile` call with the unassigned field read as `0`, whatever its arguments and
the host's answer, has a result on a sound state whose descriptors have head `0`, and
leaves such a state. -/
theorem createFile_zero_total (fopenOk : Bool) (name : String) (size permissions : Int)
    (s : FileSystem) (hs : Sound s) (hfc : s.fileCount ≤ MAX_FILES) (hz : HeadsZero s) :
    ∃ r s', createFile 0 fopenOk name size permissions s = some (r, s')
      ∧ Sound s' ∧ s'.fileCount ≤ MAX_FILES ∧ HeadsZero s' := by
  have hmf := maxFiles_eq
  by_cases c1 : s.fileCount ≥ MAX_FILES
  · refine ⟨-1, s, ?_, hs, hfc, hz⟩
    unfold createFile
    rw [if_pos c1]
  by_cases c2 : name.length > MAX_FILENAME_LENGTH
  · refine ⟨-2, s, ?_, hs, hfc, hz⟩
    unfold createFile
    rw [if_neg c1, if_pos c2]
  by_cases c3 : size ≤ 0 ∨ size > MAX_DATA_BLOCKS * DATA_BLOCK_SIZE
  · refine ⟨-3, s, ?_, hs, hfc, hz⟩
    unfold createFile
    rw [if_neg c1, if_neg c2, if_pos c3]
  have h3 : 0 < size := by omega
  have h4 : size ≤ MAX_DATA_BLOCKS * DATA_BLOCK_SIZE := by omega
  obtain ⟨⟨hfl, hdl, htl, hbl⟩, hr, h0⟩ := hs
  have hr' := scanTable_inRange size s.allocationTable h3 h4 hr
  have hsound1 : Sound { s with allocationTable := scanTable 0 size s.allocationTable } :=
    ⟨⟨hfl, hdl, by
        show (scanTable 0 size s.allocationTable).length = _
        rw [scanTable_length]; exact htl, hbl⟩, hr', h0⟩
  rw [createFile_of_valid 0 fopenOk name size permissions s htl (by omega) (by omega) h3 h4]
  by_cases c4 : (allocList 0 (Int.tdiv size DATA_BLOCK_SIZE) s.allocationTable 0).2
      < Int.tdiv size DATA_BLOCK_SIZE
  · rw [if_pos c4]
    exact ⟨-4, _, rfl, hsound1, hfc, hz⟩
  rw [if_neg c4]
  by_cases c5 : fopenOk = false
  · rw [if_pos c5]
    exact ⟨-5, _, rfl, hsound1, hfc, hz⟩
  rw [if_neg c5]
  obtain ⟨l, hl⟩ := walkLoop_isSome s.dataBlocks (scanTable 0 size s.allocationTable) hdl
    (by rw [scanTable_length]; exact htl) hr'
    size.toNat size 0 (by omega) (by omega) (by rw [maxBlocks_eq]; omega)
  unfold scanTable at hl
  rw [hl]
  simp only
  have hlt : s.fileCount.toNat < s.files.length := by omega
  rw [if_pos ⟨h0, hlt⟩]
  refine ⟨0, _, rfl, ⟨⟨?_, hdl, ?_, hbl⟩, hr', ?_⟩, ?_, ?_⟩
  · show (s.files.set _ _).length = _
    rw [List.length_set]; exact hfl
  · show (scanTable 0 size s.allocationTable).length = _
    rw [scanTable_length]; exact htl
  · show 0 ≤ s.fileCount + 1
    omega
  · show s.fileCount + 1 ≤ MAX_FILES
    omega
  · intro i f hi hf
    have hi' : (i : Int) < s.fileCount + 1 := hi
    have hf' : (s.files.set s.fileCount.toNat
        { name := storedName name size, size := size, permissions := permissions,
            firstDataBlock := 0 })[i]?
        = some f := hf
    rw [List.getElem?_set] at hf'
    by_cases he : s.fileCount.toNat = i
    · rw [if_pos he, if_pos hlt] at hf'
      simp only [Option.some.injEq] at hf'
      rw [← hf']
    · rw [if_neg he] at hf'
      exact hz i f (by omega) hf'


/-- A sequence of `createFile` calls with the unassigned field read as `0` has a result on
a sound state whose descriptors have head `0`, and leaves such a state. -/
theorem runOps_createOps_total (calls : List (Bool × Request)) :
    ∀ s : FileSystem, Sound s → s.fileCount ≤ MAX_FILES → HeadsZero s →
      ∃ s', runOps (createOps calls) s = some s'
        ∧ Sound s' ∧ s'.fileCount ≤ MAX_FILES ∧ HeadsZero s' := by
  induction calls with
  | nil =>
    intro s hs hfc hz
    exact ⟨s, rfl, hs, hfc, hz⟩
  | cons c cs ih =>
    intro s hs hfc hz
    obtain ⟨r, s1, hc, hs1, hfc1, hz1⟩ :=
      createFile_zero_total c.1 c.2.name c.2.size c.2.permissions s hs hfc hz
    obtain ⟨s', hrun, hs', hfc', hz'⟩ := ih s1 hs1 hfc1 hz1
    refine ⟨s', ?_, hs', hfc', hz'⟩
    show runOps (Op.create 0 c.1 c.2.name c.2.size c.2.permissions :: createOps cs) s = _
    simp only [runOps, step]
    rw [hc]
    simp only [Option.map_some', Option.some_bind]
    exact hrun

/-- The slot search of pros2.c stays inside `files` and returns `-1` or a slot index. -/
theorem findSlot_isSome (files : List FileMetadata) (hlen : files.length = MAX_FILES) :
    ∀ (fuel i : Nat), ∃ k, Pros2.findSlot files fuel i = some k
      ∧ (k = -1 ∨ (0 ≤ k ∧ k < (MAX_FILES : Int))) := by
  intro fuel
  induction fuel with
  | zero => intro i; exact ⟨-1, rfl, Or.inl rfl⟩
  | succ fuel ih =>
    intro i
    rw [Pros2.findSlot]
    by_cases hg : i < MAX_FILES
    · rw [if_pos hg]
      have hlt : i < files.length := by omega
      rw [List.getElem?_eq_getElem hlt]
      simp only
      by_cases hn : files[i].size = 0
      · rw [if_pos hn]
        exact ⟨_, rfl, Or.inr ⟨by omega, by omega⟩⟩
      · rw [if_neg hn]; exact ih (i + 1)
    · rw [if_neg hg]; exact ⟨-1, rfl, Or.inl rfl⟩

/-- A `createFile` call of pros2.c, whatever its arguments and the host's answer, has a
result on a well-formed state with entries in range and all heads `0`, and leaves such a
state. -/
theorem pros2_createFile_total (fopenOk : Bool) (name : String) (size permissions : Int)
    (s : FileSystem) (hwf : WellFormed s) (hr : InRange s.allocationTable)
    (hz : AllHeadsZero s) :
    ∃ m s', Pros2.createFile fopenOk name size permissions s = some (m, s')
      ∧ WellFormed s' ∧ InRange s'.allocationTable ∧ AllHeadsZero s' := by
  have hmf := maxFiles_eq
  unfold Pros2.createFile
  by_cases c1 : s.fileCount ≥ MAX_FILES
  · rw [if_pos c1]; exact ⟨_, s, rfl, hwf, hr, hz⟩
  rw [if_neg c1]
  by_cases c2 : name.length > MAX_FILENAME_LENGTH
  · rw [if_pos c2]; exact ⟨_, s, rfl, hwf, hr, hz⟩
  rw [if_neg c2]
  by_cases c3 : size ≤ 0 ∨ size > MAX_DATA_BLOCKS * DATA_BLOCK_SIZE
  · rw [if_pos c3]; exact ⟨_, s, rfl, hwf, hr, hz⟩
  rw [if_neg c3]
  have h3 : 0 < size := by omega
  have h4 : size ≤ MAX_DATA_BLOCKS * DATA_BLOCK_SIZE := by omega
  obtain ⟨hfl, hdl, htl, hbl⟩ := hwf
  obtain ⟨k, hk, hkr⟩ := findSlot_isSome s.files hfl MAX_FILES 0
  rw [hk]
  simp only
  by_cases c4 : k = -1
  · rw [if_pos c4]; exact ⟨_, s, rfl, ⟨hfl, hdl, htl, hbl⟩, hr, hz⟩
  rw [if_neg c4]
  have hk0 : 0 ≤ k ∧ k < (MAX_FILES : Int) := by
    rcases hkr with h | h
    · exact absurd h c4
    · exact h
  have hlt : k.toNat < s.files.length := by omega
  rw [List.getElem?_eq_getElem hlt]
  simp only
  have hhead : (s.files[k.toNat]).firstDataBlock = 0 := hz _ (List.getElem_mem hlt)
  rw [hhead]
  rw [allocLoop_eq_allocList 0 size MAX_DATA_BLOCKS s.allocationTable 0 0 htl (by omega)
    (by omega)]
  simp only [List.take_zero, List.drop_zero, List.nil_append]
  have hr' := scanTable_inRange size s.allocationTable h3 h4 hr
  have hz' : AllHeadsZero { s with
      files := s.files.set k.toNat
        { name := storedName name size, size := size, permissions := permissions,
            firstDataBlock := 0 }
      allocationTable := scanTable 0 size s.allocationTable } := by
    intro f hf
    rcases List.mem_or_eq_of_mem_set hf with h | h
    · exact hz f h
    · rw [h]
  have hwf' : WellFormed { s with
      files := s.files.set k.toNat
        { name := storedName name size, size := size, permissions := permissions,
            firstDataBlock := 0 }
      allocationTable := scanTable 0 size s.allocationTable } :=
    ⟨by show (s.files.set _ _).length = _; rw [List.length_set]; exact hfl, hdl,
      by show (scanTable 0 size s.allocationTable).length = _
         rw [scanTable_length]; exact htl, hbl⟩
  by_cases c5 : (allocList 0 (Int.tdiv size DATA_BLOCK_SIZE) s.allocationTable 0).2
      < Int.tdiv size DATA_BLOCK_SIZE
  · rw [if_pos c5]
    exact ⟨_, _, rfl, hwf', hr', hz'⟩
  rw [if_neg c5]
  by_cases c6 : fopenOk = false
  · rw [if_pos c6]
    exact ⟨_, _, rfl, hwf', hr', hz'⟩
  rw [if_neg c6]
  obtain ⟨l, hl⟩ := walkLoop_isSome s.dataBlocks (scanTable 0 size s.allocationTable) hdl
    (by rw [scanTable_length]; exact htl) hr'
    size.toNat size 0 (by omega) (by omega) (by rw [maxBlocks_eq]; omega)
  unfold scanTable at hl
  rw [hl]
  exact ⟨_, _, rfl, hwf', hr', hz'⟩

/-- A sequence of `createFile` calls of pros2.c has a result on a well-formed state with
entries in range and all heads `0`, and leaves such a state. -/
theorem pros2_createSeq_total (calls : List (Bool × Request)) :
    ∀ s : FileSystem, WellFormed s → InRange s.allocationTable → AllHeadsZero s →
      ∃ s', Pros2.createSeq calls s = some s'
        ∧ WellFormed s' ∧ InRange s'.allocationTable ∧ AllHeadsZero s' := by
  induction calls with
  | nil =>
    intro s hwf hr hz
    exact ⟨s, rfl, hwf, hr, hz⟩
  | cons c cs ih =>
    intro s hwf hr hz
    obtain ⟨m, s1, hc, hwf1, hr1, hz1⟩ :=
      pros2_createFile_total c.1 c.2.name c.2.size c.2.permissions s hwf hr hz
    obtain ⟨s', hrun, hwf', hr', hz'⟩ := ih s1 hwf1 hr1 hz1
    refine ⟨s', ?_, hwf', hr', hz'⟩
    simp only [Pros2.createSeq]
    rw [hc]
    simp only [Option.some_bind]
    exact hrun


theorem init_headsZero (s : FileSystem) : HeadsZero (initializeFileSystem s) := by
  intro i f hi _
  have h0 : (initializeFileSystem s).fileCount = 0 := rfl
  rw [h0] at hi
  omega

theorem bootState_allHeadsZero : AllHeadsZero bootState := by
  intro f hf
  rw [List.eq_of_mem_replicate hf]

/-- C21: the range invariant of the allocation table. From `initializeFileSystem` on
well-formed storage whose slots have head `0`, every sequence of `createFile` calls, of
errorhandlepros4.c with the unassigned `firstDataBlock` read as `0` and of pros2.c, has a
result, and in the state reached every table entry is `-1` or an index in
`[0, MAX_DATA_BLOCKS)`; the walk of `createFile` from head `0` visits only indices inside
the pool, and a further `createFile`, `readFile` or `writeFile` has a result, that is, makes
no access outside an array. -/
theorem allocationTable_in_range (s0 : FileSystem) (calls : List (Bool × Request))
    (hwf : WellFormed s0) (hz : AllHeadsZero s0) :
    (∃ s, runOps (createOps calls) (initializeFileSystem s0) = some s
      ∧ (∀ x ∈ s.allocationTable, x = -1 ∨ (0 ≤ x ∧ x < (MAX_DATA_BLOCKS : Int)))
      ∧ (∀ size : Int, ∃ l,
          walkLoop s.dataBlocks s.allocationTable size.toNat size 0 = some l
          ∧ ∀ x ∈ l, 0 ≤ x ∧ x < (MAX_DATA_BLOCKS : Int))
      ∧ (∀ (fopenOk : Bool) (name : String) (size permissions : Int),
          ∃ r, createFile 0 fopenOk name size permissions s = some r)
      ∧ (∀ (fopenOk : Bool) (name : String), ∃ r, readFile fopenOk name s = some r)
      ∧ (∀ (fopenOk : Bool) (name : String) (content : List Char),
          ∃ r, writeFile fopenOk name content s = some r))
    ∧ (∃ s, Pros2.createSeq calls (initializeFileSystem s0) = some s
      ∧ (∀ x ∈ s.allocationTable, x = -1 ∨ (0 ≤ x ∧ x < (MAX_DATA_BLOCKS : Int)))
      ∧ (∀ size : Int, ∃ l,
          walkLoop s.dataBlocks s.allocationTable size.toNat size 0 = some l
          ∧ ∀ x ∈ l, 0 ≤ x ∧ x < (MAX_DATA_BLOCKS : Int))
      ∧ (∀ (fopenOk : Bool) (name : String) (size permissions : Int),
          ∃ r, Pros2.createFile fopenOk name size permissions s = some r)) := by
  have hmb := maxBlocks_eq
  constructor
  · obtain ⟨s, hrun, hs, hfc, hzs⟩ := runOps_createOps_total calls (initializeFileSystem s0)
      (init_sound s0 hwf) (by show (0 : Int) ≤ MAX_FILES; decide) (init_headsZero s0)
    refine ⟨s, hrun, ?_, ?_, ?_, ?_, ?_⟩
    · intro x hx
      have := hs.2.1 x hx
      omega
    · intro size
      obtain ⟨l, hl⟩ := walkLoop_isSome s.dataBlocks s.allocationTable hs.1.2.1 hs.1.2.2.1
        hs.2.1 size.toNat size 0 (by omega) (by omega) (by omega)
      exact ⟨l, hl, walkLoop_visited s.dataBlocks s.allocationTable hs.1.2.1 _ _ _ l hl⟩
    · intro fopenOk name size permissions
      obtain ⟨r, s', h, _⟩ := createFile_zero_total fopenOk name size permissions s hs hfc hzs
      exact ⟨(r, s'), h⟩
    · intro fopenOk name
      exact readFile_isSome fopenOk name s hs hfc hzs
    · intro fopenOk name content
      exact writeFile_isSome fopenOk name content s hs hfc hzs
  · obtain ⟨s, hrun, hwfs, hrs, hzs⟩ := pros2_createSeq_total calls (initializeFileSystem s0)
      (init_wellFormed s0 hwf) (init_inRange s0) hz
    refine ⟨s, hrun, ?_, ?_, ?_⟩
    · intro x hx
      have := hrs x hx
      omega
    · intro size
      obtain ⟨l, hl⟩ := walkLoop_isSome s.dataBlocks s.allocationTable hwfs.2.1 hwfs.2.2.1
        hrs size.toNat size 0 (by omega) (by omega) (by omega)
      exact ⟨l, hl, walkLoop_visited s.dataBlocks s.allocationTable hwfs.2.1 _ _ _ l hl⟩
    · intro fopenOk name size permissions
      obtain ⟨m, s', h, _⟩ := pros2_createFile_total fopenOk name size permissions s hwfs
        hrs hzs
      exact ⟨(m, s'), h⟩

/-- C21, instance: the three calls of `main` from zero-initialised static storage, in both
variants. -/
theorem allocationTable_in_range_witness :
    (∃ s, runOps (createOps [(true, ⟨"file1.txt", 2048, 644⟩), (true, ⟨"file2.txt", 1024, 600⟩),
          (true, ⟨"file3.txt", 4096, 777⟩)]) (initializeFileSystem bootState) = some s
      ∧ ∀ x ∈ s.allocationTable, x = -1 ∨ (0 ≤ x ∧ x < (MAX_DATA_BLOCKS : Int)))
    ∧ (∃ s, Pros2.createSeq [(true, ⟨"file1.txt", 2048, 644⟩), (true, ⟨"file2.txt", 1024, 600⟩),
          (true, ⟨"file3.txt", 4096, 777⟩)] (initializeFileSystem bootState) = some s
      ∧ ∀ x ∈ s.allocationTable, x = -1 ∨ (0 ≤ x ∧ x < (MAX_DATA_BLOCKS : Int))) := by
  have h := allocationTable_in_range bootState
    [(true, ⟨"file1.txt", 2048, 644⟩), (true, ⟨"file2.txt", 1024, 600⟩),
      (true, ⟨"file3.txt", 4096, 777⟩)] bootState_wellFormed bootState_allHeadsZero
  obtain ⟨⟨s, h1, h2, _⟩, ⟨t, h3, h4, _⟩⟩ := h
  exact ⟨⟨s, h1, h2⟩, ⟨t, h3, h4⟩⟩

/-! ## The name field -/

theorem name100_length : name100.length = 100 := by decide

/-- C22 (the code breaks the claim): `createFile` rejects a name only when it is longer
than `MAX_FILENAME_LENGTH`. A name of exactly `MAX_FILENAME_LENGTH` characters never gets
the result `-2`, and after `initializeFileSystem` the call with it returns `0` and the
name is listed, although the name and its terminator need `MAX_FILENAME_LENGTH + 1`
characters and do not fit the field. -/
theorem createFile_accepts_full_length_name :
    name100.length = MAX_FILENAME_LENGTH
    ∧ ¬ FitsNameField name100
    ∧ createFile 0 true name100 1024 0 (initializeFileSystem bootState)
        = some (0, afterCreate (initializeFileSystem bootState) name100 1024 0)
    ∧ listFiles (afterCreate (initializeFileSystem bootState) name100 1024 0)
        = [(name100, 1024, 0)]
    ∧ ∀ (uninit : Int) (fopenOk : Bool) (size permissions : Int) (s : FileSystem),
        (createFile uninit fopenOk name100 size permissions s).map (fun r => r.1)
          ≠ some (-2) := by
  have hlen := name100_length
  have hmax : MAX_FILENAME_LENGTH = 100 := rfl
  have hs0 := init_sound bootState bootState_wellFormed
  refine ⟨by rw [hlen, hmax], ?_, ?_, ?_, ?_⟩
  · unfold FitsNameField
    rw [hlen, hmax]
    decide
  · exact createFile_sound name100 1024 0 _ hs0 (by decide) (by rw [hlen, hmax]) (by decide)
      (by decide)
      (by
        have h1 : Int.tdiv 1024 (DATA_BLOCK_SIZE : Int) = 1 := by decide
        have h2 := init_freeCount bootState
        have h3 : MAX_DATA_BLOCKS = 1000 := rfl
        rw [h1, h2, h3]
        decide)
  · rw [afterCreate_listFiles name100 1024 0 _ hs0 (by decide)]
    have hl0 : listFiles (initializeFileSystem bootState) = [] := by
      unfold listFiles initializeFileSystem
      simp
    rw [hl0]
    rfl
  · intro uninit fopenOk size permissions s
    cases hc : createFile uninit fopenOk name100 size permissions s with
    | none => simp
    | some p =>
      obtain ⟨r, s'⟩ := p
      simp only [Option.map_some', ne_eq, Option.some.injEq]
      intro hr
      rcases createFile_cases uninit fopenOk name100 size permissions s r s' hc with
        c | c | c | c | c | c
      · have := c.1; omega
      · have := c.2.2.2; omega
      · have := c.1; omega
      · have := c.1; omega
      · have := c.1; omega
      · have := c.1; omega

end FileStore
